import Mathlib

/-!
# Tracker and peers of the BitTorrent-style swarm (tema2.c)

A shallow embedding of `src/tema2.c`: the tracker registry and its message
handlers, and the download and upload duties of a peer.

* C `int` values that travel in messages (file ids, segment counts, segment
  indices, signals) are `Int`; the guards of the source decide whether they
  are used as array indices, and only then are they turned into `Nat`.
* Ranks (`sender`, loop variables over peers) and array indices are `Nat`.
* A hash buffer `char[HASH_SIZE + 1]` is represented by the C string it holds
  (the characters before the first NUL), a `List Char`; `strlen` is
  `List.length`, an empty buffer is `[]`.
* The arrays of `TrackerData` are total functions on indices; the source only
  touches indices that its guards admit.
* `MPI_Recv` is modelled by passing the received value as an argument,
  `MPI_Send` by appending to the list of sent messages a handler returns.
-/

namespace BitTorrent

/-! ## Constants and message types (tema2.c lines 8-23) -/

/-- Rank of the tracker process. -/
def TRACKER_RANK : Nat := 0

/-- Largest file id; the tables have `MAX_FILES + 1` rows. -/
def MAX_FILES : Nat := 10

/-- Length of a segment hash. -/
def HASH_SIZE : Nat := 32

/-- Number of hash slots of one file record. -/
def MAX_CHUNKS : Nat := 100

def MSG_ACK : Int := 1
def MSG_REQUEST : Int := 2
def MSG_SEGMENT : Int := 3
def MSG_END_OF_MESSAGE : Int := 4
def MSG_UPDATE : Int := 5
def MSG_FINISH : Int := 6
def MSG_TERMINATE : Int := 7

/-! ## Data model (tema2.c lines 25-50) -/

/-- The C string held by a `char[HASH_SIZE + 1]` buffer. -/
abbrev Hash := List Char

/-- Record `file_info`: one per (peer, file) pair. -/
@[ext]
structure file_info where
  file_number : Int
  n_segments : Int
  segments : Nat → Hash
  usage_count : Int

/-- Record `TrackerData`. `all_files` is indexed `[peer][file]`, `swarms` and
`seeds` are indexed `[file][peer]`, as in the source. -/
@[ext]
structure TrackerData where
  all_files : Nat → Nat → file_info
  swarms : Nat → Nat → Int
  seeds : Nat → Nat → Int
  number_of_tasks : Nat
  n_clients : Int

/-- Payload of one MPI message: `count` values of `MPI_INT` (always one in
this program) or a `HASH_SIZE + 1` character buffer. -/
inductive Payload where
  | int (v : Int)
  | chars (s : Hash)
  deriving DecidableEq, Repr

/-- One `MPI_Send`: destination rank, tag and payload. -/
structure Sent where
  dest : Nat
  tag : Int
  payload : Payload
  deriving DecidableEq, Repr

/-! ## Array writes -/

/-- Assignment `data->swarms[f][p] = v`. -/
def set_swarm (d : TrackerData) (f p : Nat) (v : Int) : TrackerData :=
  { d with swarms := fun g q => if g = f ∧ q = p then v else d.swarms g q }

/-- Assignment `data->seeds[f][p] = v`. -/
def set_seed (d : TrackerData) (f p : Nat) (v : Int) : TrackerData :=
  { d with seeds := fun g q => if g = f ∧ q = p then v else d.seeds g q }

/-- Assignment `data->all_files[p][f].file_number = v`. -/
def set_file_number (d : TrackerData) (p f : Nat) (v : Int) : TrackerData :=
  { d with all_files := fun q g =>
      if q = p ∧ g = f then { d.all_files q g with file_number := v } else d.all_files q g }

/-- Assignment `data->all_files[p][f].n_segments = v`. -/
def set_n_segments (d : TrackerData) (p f : Nat) (v : Int) : TrackerData :=
  { d with all_files := fun q g =>
      if q = p ∧ g = f then { d.all_files q g with n_segments := v } else d.all_files q g }

/-- Writing the C string `h` into the buffer `data->all_files[p][f].segments[j]`. -/
def set_segment (d : TrackerData) (p f j : Nat) (h : Hash) : TrackerData :=
  { d with all_files := fun q g =>
      if q = p ∧ g = f then
        { d.all_files q g with
          segments := fun k => if k = j then h else (d.all_files q g).segments k }
      else d.all_files q g }

/-- The peer ranks `1 .. number_of_tasks - 1`, in the order of
`for (int i = 1; i < number_of_tasks; i++)`. -/
def peer_ranks (number_of_tasks : Nat) : List Nat :=
  List.range' 1 (number_of_tasks - 1)

/-! ## init_tracker (lines 53-119) -/

/-- A `calloc`ed `file_info` whose `segments` array is `calloc`ed too. -/
def zero_file : file_info :=
  { file_number := 0, n_segments := 0, segments := fun _ => [], usage_count := 0 }

/-- Function `init_tracker`: every table is zero-filled, the counter is
`number_of_tasks - 1`. (The allocation-failure exits are not modelled.) -/
def init_tracker (number_of_tasks : Nat) : TrackerData :=
  { all_files := fun _ _ => zero_file
    swarms := fun _ _ => 0
    seeds := fun _ _ => 0
    number_of_tasks := number_of_tasks
    n_clients := (number_of_tasks : Int) - 1 }

/-! ## Registration (lines 133-204) -/

/-- Function `validate_file_id`: 1 when `0 <= file_id <= MAX_FILES`, else 0. -/
def validate_file_id (file_id : Int) (_sender : Nat) : Int :=
  if file_id < 0 ∨ file_id > (MAX_FILES : Int) then 0 else 1

/-- Function `receive_segment_info`: the received buffer `msg` is stored in
slot `segment_id` first, then its length is checked. -/
def receive_segment_info (data : TrackerData) (file_id sender segment_id : Nat)
    (msg : Hash) : TrackerData × Int :=
  let data1 := set_segment data sender file_id segment_id msg
  if msg.length ≠ HASH_SIZE then (data1, -1) else (data1, 0)

/-- The loop `for (k = 0; k < n_segments; k++)` of `receive_file_info`, with
`remaining` iterations left from index `k`; `hashes k` is the buffer delivered
by the receive of iteration `k`. -/
def receive_segments_loop (file_id sender : Nat) (hashes : Nat → Hash) :
    Nat → Nat → TrackerData → TrackerData × Int
  | 0, _, data => (data, 0)
  | remaining + 1, k, data =>
    let res := receive_segment_info data file_id sender k (hashes k)
    if res.2 < 0 then (res.1, -1)
    else receive_segments_loop file_id sender hashes remaining (k + 1) res.1

/-- Function `receive_file_info`. The three receives deliver `file_id`,
`n_segments` and the buffers `hashes 0, hashes 1, ...`. The result is the
registry afterwards and the return value (0 or -1). -/
def receive_file_info (data : TrackerData) (sender : Nat) (file_id n_segments : Int)
    (hashes : Nat → Hash) : TrackerData × Int :=
  if validate_file_id file_id sender = 0 then (data, -1)
  else
    let f := file_id.toNat
    let d1 := set_swarm data f sender 1
    let d2 := set_seed d1 f sender 1
    if n_segments ≤ 0 ∨ n_segments > (MAX_CHUNKS : Int) then (d2, -1)
    else
      let d3 := set_file_number d2 sender f file_id
      let d4 := set_n_segments d3 sender f n_segments
      let d5 := (peer_ranks d4.number_of_tasks).foldl
        (fun d k => set_n_segments d k f n_segments) d4
      receive_segments_loop f sender hashes n_segments.toNat 0 d5

/-! ## REQUEST (lines 250-291) -/

/-- Function `send_segment_request`: four sends to `sender` on tag 0. -/
def send_segment_request (sender segment_id peer_id : Nat) (segment_hash : Hash) :
    List Sent :=
  [ ⟨sender, 0, .int MSG_SEGMENT⟩,
    ⟨sender, 0, .int segment_id⟩,
    ⟨sender, 0, .int peer_id⟩,
    ⟨sender, 0, .chars segment_hash⟩ ]

/-- Function `handle_segment_request1`; `file_id` is the value received. The
registry is not written, the result is the list of messages sent. -/
def handle_segment_request1 (data : TrackerData) (sender : Nat) (file_id : Int) :
    List Sent :=
  if file_id < 0 ∨ file_id > (MAX_FILES : Int) then []
  else
    let f := file_id.toNat
    let count_msg : List Sent :=
      match (peer_ranks data.number_of_tasks).find? (fun i => data.swarms f i ≠ 0) with
      | some i => [⟨sender, 0, .int (data.all_files i f).n_segments⟩]
      | none => []
    let entries : List Sent :=
      (peer_ranks data.number_of_tasks).flatMap fun i =>
        if (data.swarms f i ≠ 0 ∨ data.seeds f i ≠ 0) ∧ i ≠ sender then
          (List.range (data.all_files i f).n_segments.toNat).flatMap fun j =>
            if ((data.all_files i f).segments j).length > 0 then
              send_segment_request sender j i ((data.all_files i f).segments j)
            else []
        else []
    count_msg ++ entries ++ [⟨sender, 0, .int MSG_END_OF_MESSAGE⟩]

/-! ## UPDATE (lines 295-323) -/

/-- One round of the `while (1)` loop of `handle_update`: the signal received
on tag 1 and, read only when the signal is `MSG_SEGMENT`, the segment index,
file id and hash buffer received on tag 0. -/
structure UpdateMsg where
  signal : Int
  segment_id : Int
  file_id : Int
  hash : Hash
  deriving DecidableEq, Repr

/-- Function `handle_update`. The list holds the rounds of the stream in
order; the stream is closed by `MSG_END_OF_MESSAGE`, which is either the
signal of a round in the list (the loop breaks there) or the marker that
follows the last round of the list. A round whose indices fail the range
check is skipped by `continue`: nothing of it is written (the source does not
read its hash buffer either). A signal other than `MSG_SEGMENT` and
`MSG_END_OF_MESSAGE` is ignored. -/
def handle_update (sender : Nat) : TrackerData → List UpdateMsg → TrackerData
  | data, [] => data
  | data, m :: rest =>
    if m.signal = MSG_END_OF_MESSAGE then data
    else if m.signal = MSG_SEGMENT then
      if m.file_id < 0 ∨ m.file_id > (MAX_FILES : Int) ∨
          m.segment_id < 0 ∨ m.segment_id ≥ (MAX_CHUNKS : Int) then
        handle_update sender data rest
      else
        let d1 := set_segment data sender m.file_id.toNat m.segment_id.toNat m.hash
        handle_update sender (set_swarm d1 m.file_id.toNat sender 1) rest
    else handle_update sender data rest

/-! ## Main loop of `tracker` (lines 375-416) -/

/-- The inner loop of the `MSG_FINISH` case:
`strncpy(dst[j], src[j], HASH_SIZE); dst[j][HASH_SIZE] = 0` for every
`j < all_files[i][file_id].n_segments`, with `dst` the record of `sender` and
`src` the record of peer `i`, read at the moment of the copy. -/
def copy_segments (data : TrackerData) (sender i file_id : Nat) : TrackerData :=
  (List.range (data.all_files i file_id).n_segments.toNat).foldl
    (fun d j =>
      set_segment d sender file_id j (((d.all_files i file_id).segments j).take HASH_SIZE))
    data

/-- The `MSG_FINISH` case of the switch in `tracker` (lines 391-410);
`file_id` is the value received on tag 0. -/
def tracker_finish (data : TrackerData) (sender : Nat) (file_id : Int) : TrackerData :=
  if file_id ≥ 0 ∧ file_id ≤ (MAX_FILES : Int) then
    let f := file_id.toNat
    let d1 := (peer_ranks data.number_of_tasks).foldl
      (fun d i => if d.seeds f i ≠ 0 then copy_segments d sender i f else d) data
    set_seed d1 f sender 1
  else data

/-- What the receives of one iteration of the main loop deliver: the sender
and signal of the tag-1 receive, the file id read by the `MSG_REQUEST` and
`MSG_FINISH` cases, and the stream read by the `MSG_UPDATE` case. -/
structure Incoming where
  sender : Nat
  signal : Int
  file_id : Int
  updates : List UpdateMsg

/-- Body of the `while (data->n_clients > 0)` loop of `tracker`: the switch
on the received signal. The result is the registry afterwards and the
messages sent during the iteration. -/
def tracker_dispatch (data : TrackerData) (m : Incoming) : TrackerData × List Sent :=
  if m.signal = MSG_REQUEST then (data, handle_segment_request1 data m.sender m.file_id)
  else if m.signal = MSG_UPDATE then (handle_update m.sender data m.updates, [])
  else if m.signal = MSG_FINISH then (tracker_finish data m.sender m.file_id, [])
  else if m.signal = MSG_TERMINATE then ({ data with n_clients := data.n_clients - 1 }, [])
  else (data, [])

/-! ## Concrete inputs used in the checks below -/

/-- A hash of `HASH_SIZE` characters. -/
def hashA : Hash := List.replicate 32 'a'

/-- Another hash of `HASH_SIZE` characters. -/
def hashB : Hash := List.replicate 32 'b'

/-- The registry after peer 1 registered file 1 with two segments. -/
def one_owner : TrackerData :=
  (receive_file_info (init_tracker 3) 1 1 2 (fun _ => hashA)).1

/-! ## Sequences of tracker operations -/

/-- What the receives of one call of `receive_file_info` deliver, together
with the rank the call is made for. -/
structure Registration where
  sender : Nat
  file_id : Int
  n_segments : Int
  hashes : Nat → Hash

/-- A registration as a peer sends it for a file it owns: sender among the
peers `1 .. number_of_tasks - 1`, file id in `0 .. MAX_FILES`, segment count in
`1 .. MAX_CHUNKS`, every hash of length `HASH_SIZE`. -/
def valid_registration (number_of_tasks : Nat) (r : Registration) : Prop :=
  1 ≤ r.sender ∧ r.sender < number_of_tasks ∧
  0 ≤ r.file_id ∧ r.file_id ≤ (MAX_FILES : Int) ∧
  1 ≤ r.n_segments ∧ r.n_segments ≤ (MAX_CHUNKS : Int) ∧
  ∀ k, k < r.n_segments.toNat → (r.hashes k).length = HASH_SIZE

instance (number_of_tasks : Nat) (r : Registration) :
    Decidable (valid_registration number_of_tasks r) := by
  unfold valid_registration
  infer_instance

/-- The registry after one call of `receive_file_info`. -/
def register (data : TrackerData) (r : Registration) : TrackerData :=
  (receive_file_info data r.sender r.file_id r.n_segments r.hashes).1

/-- The registry after a sequence of calls of `receive_file_info`, as made by
the loops of `receive_initial_files`. -/
def register_all (data : TrackerData) (rs : List Registration) : TrackerData :=
  rs.foldl register data

/-- One tracker operation: a file registration of the initial phase or one
iteration of the main loop. -/
inductive TrackerEvent where
  | registration (r : Registration)
  | incoming (m : Incoming)

/-- The registry after one tracker operation. -/
def tracker_event (data : TrackerData) : TrackerEvent → TrackerData
  | .registration r => register data r
  | .incoming m => (tracker_dispatch data m).1

/-- The registry after a sequence of tracker operations. -/
def tracker_run (data : TrackerData) (es : List TrackerEvent) : TrackerData :=
  es.foldl tracker_event data

/-- An operation that is not a registration of file `f` with an in-range
segment count other than `n`. -/
def keeps_count (f : Nat) (n : Int) : TrackerEvent → Prop
  | .registration r =>
    r.file_id ≠ (f : Int) ∨ r.n_segments = n ∨ r.n_segments ≤ 0 ∨
      r.n_segments > (MAX_CHUNKS : Int)
  | .incoming _ => True

/-- The registry after peer 1 registered file 1 with two segments and peer 2
then registered file 1 with three segments. -/
def two_counts : TrackerData :=
  register one_owner ⟨2, 1, 3, fun _ => hashB⟩

/-- Specification-side summary of an UPDATE stream, compared with
`handle_update` below: the hash written last for slot `j` of file `f` by the
rounds that pass the range check, up to the end marker, if there is one. -/
def last_update (f j : Nat) : List UpdateMsg → Option Hash
  | [] => none
  | m :: rest =>
    if m.signal = MSG_END_OF_MESSAGE then none
    else if m.signal = MSG_SEGMENT then
      if m.file_id < 0 ∨ m.file_id > (MAX_FILES : Int) ∨
          m.segment_id < 0 ∨ m.segment_id ≥ (MAX_CHUNKS : Int) then
        last_update f j rest
      else
        match last_update f j rest with
        | some h => some h
        | none => if m.file_id.toNat = f ∧ m.segment_id.toNat = j then some m.hash else none
    else last_update f j rest

/-- Specification-side summary of an UPDATE stream, compared with
`handle_update` below: whether some round that passes the range check, up to
the end marker, names file `f`. -/
def updates_file (f : Nat) : List UpdateMsg → Bool
  | [] => false
  | m :: rest =>
    if m.signal = MSG_END_OF_MESSAGE then false
    else if m.signal = MSG_SEGMENT then
      if m.file_id < 0 ∨ m.file_id > (MAX_FILES : Int) ∨
          m.segment_id < 0 ∨ m.segment_id ≥ (MAX_CHUNKS : Int) then
        updates_file f rest
      else
        decide (m.file_id.toNat = f) || updates_file f rest
    else updates_file f rest

/-- Specification-side listing, compared with `handle_segment_request1` below:
the SEGMENT entries of the reply to REQUEST(f) from `requester`, as
triples (segment index, holder, hash): one for every peer
`i` in `1 .. number_of_tasks - 1` that is in `swarm[f]` or `seeds[f]` and is
not the requester, and every index `j` below the segment count of the record
of `i` at which that record holds a non-empty hash. -/
def request_triples (data : TrackerData) (requester f : Nat) : List (Nat × Nat × Hash) :=
  (peer_ranks data.number_of_tasks).flatMap fun i =>
    if (data.swarms f i ≠ 0 ∨ data.seeds f i ≠ 0) ∧ i ≠ requester then
      ((List.range (data.all_files i f).n_segments.toNat).filter
        (fun j => decide (((data.all_files i f).segments j).length > 0))).map
        (fun j => (j, i, (data.all_files i f).segments j))
    else []

/-- The messages of one SEGMENT entry of a reply. -/
def entry_messages (requester : Nat) (t : Nat × Nat × Hash) : List Sent :=
  send_segment_request requester t.1 t.2.1 t.2.2

/-- The end marker that closes a reply to `requester`. -/
def end_marker (requester : Nat) : Sent :=
  ⟨requester, 0, .int MSG_END_OF_MESSAGE⟩

/-- The registry after peer 1 registered file 1 with two segments and then
sent an UPDATE naming slot 5 of file 1. -/
def stale_slot : TrackerData :=
  handle_update 1 one_owner [⟨MSG_SEGMENT, 5, 1, hashB⟩]

/-- The registry after FINISH(1) from peer 1 on the empty registry. -/
def seed_only : TrackerData :=
  tracker_finish (init_tracker 3) 1 1

/-- An UPDATE round as a peer streams it: signal `MSG_SEGMENT`, file id in
`0 .. MAX_FILES`, segment index in `0 .. MAX_CHUNKS - 1`. -/
def in_range_update (m : UpdateMsg) : Prop :=
  m.signal = MSG_SEGMENT ∧ 0 ≤ m.file_id ∧ m.file_id ≤ (MAX_FILES : Int) ∧
  0 ≤ m.segment_id ∧ m.segment_id < (MAX_CHUNKS : Int)

instance (m : UpdateMsg) : Decidable (in_range_update m) := by
  unfold in_range_update
  infer_instance

/-- An UPDATE stream of two rounds for the same slot of file 1 and one round
for another slot. -/
def sample_updates : List UpdateMsg :=
  [⟨MSG_SEGMENT, 0, 1, hashA⟩, ⟨MSG_SEGMENT, 1, 1, hashA⟩, ⟨MSG_SEGMENT, 0, 1, hashB⟩]

/-! ## End of the main loop and shutdown of `tracker` (lines 369-424) -/

/-- The loop `while (data->n_clients > 0)` of `tracker` on the messages the
tag-1 receives deliver, in order. The result is the registry when the loop
ends, the messages sent, and the number of messages handled; `none` when the
list runs out while the counter is still positive (the receive blocks). -/
def tracker_loop : TrackerData → List Incoming → Option (TrackerData × List Sent × Nat)
  | data, [] => if data.n_clients > 0 then none else some (data, [], 0)
  | data, m :: rest =>
    if data.n_clients > 0 then
      match tracker_loop (tracker_dispatch data m).1 rest with
      | none => none
      | some (d, sent, k) => some (d, (tracker_dispatch data m).2 ++ sent, k + 1)
    else some (data, [], 0)

/-- The start broadcast of `tracker` (lines 370-373): `MSG_ACK` on tag 0 to
every peer. -/
def tracker_start (number_of_tasks : Nat) : List Sent :=
  (peer_ranks number_of_tasks).map fun i => ⟨i, 0, .int MSG_ACK⟩

/-- The shutdown broadcast of `tracker` (lines 419-422): `MSG_TERMINATE` on
tag 1 to every peer. -/
def tracker_shutdown (number_of_tasks : Nat) : List Sent :=
  (peer_ranks number_of_tasks).map fun i => ⟨i, 1, .int MSG_TERMINATE⟩

/-- Function `tracker` from the start broadcast on (lines 369-424), on the
registry `data` left by `receive_initial_files`: the messages it sends, or
`none` when the main loop blocks. (`cleanup_tracker` frees memory only.) -/
def tracker_main (number_of_tasks : Nat) (data : TrackerData) (ms : List Incoming) :
    Option (List Sent) :=
  match tracker_loop data ms with
  | none => none
  | some (_, sent, _) =>
    some (tracker_start number_of_tasks ++ sent ++ tracker_shutdown number_of_tasks)

/-- Number of `MSG_TERMINATE` messages in a list of incoming messages. -/
def terminate_count (ms : List Incoming) : Nat :=
  ms.countP fun m => decide (m.signal = MSG_TERMINATE)

/-! ## Peer side: fetching one segment (lines 583-600) -/

/-- Outcome of `download_segment_from_peer`: the return value, the messages
sent, and the number of replies received. -/
structure FetchResult where
  result : Int
  sent : List Sent
  receives : Nat
  deriving DecidableEq, Repr

/-- The loop `while (retry_count < max_retries)` of
`download_segment_from_peer` with `remaining = max_retries - retry_count`
iterations left; `signal` is the current value of the variable `signal`,
which is both the command sent and the buffer of the reply; `replies k` is the
value delivered by the receive of iteration `k`. -/
def download_attempts (peer_rank : Nat) (segment_hash : Hash) (replies : Nat → Int) :
    Nat → Nat → Int → FetchResult
  | 0, _, _ => ⟨0, [], 0⟩
  | remaining + 1, retry_count, signal =>
    let sends : List Sent :=
      [⟨peer_rank, 1, .int signal⟩, ⟨peer_rank, 1, .chars segment_hash⟩]
    let reply := replies retry_count
    if reply = MSG_ACK then ⟨1, sends, 1⟩
    else
      let rest :=
        download_attempts peer_rank segment_hash replies remaining (retry_count + 1) reply
      ⟨rest.result, sends ++ rest.sent, rest.receives + 1⟩

/-- Function `download_segment_from_peer`: `signal = MSG_REQUEST`,
`max_retries = 3`, `retry_count = 0`. -/
def download_segment_from_peer (peer_rank : Nat) (segment_hash : Hash)
    (replies : Nat → Int) : FetchResult :=
  download_attempts peer_rank segment_hash replies 3 0 MSG_REQUEST

/-! ## Peer side: the swarm view (lines 449-559) -/

/-- One round of the reply stream read by `getPeerList`: the signal and, read
only when the signal is `MSG_SEGMENT`, segment index, peer id and hash. -/
structure ViewMsg where
  signal : Int
  segment_id : Int
  peer_id : Int
  hash : Hash
  deriving DecidableEq, Repr

/-- Function `init_peer_list`: one zero-filled record per rank. -/
def init_peer_list (file_id n_segments : Int) : Nat → file_info :=
  fun _ => { file_number := file_id, n_segments := n_segments, segments := fun _ => [],
             usage_count := 0 }

/-- Function `process_segment`: `none` stands for the return value 0 (invalid
indices), otherwise the hash is stored in `peer_list[peer_id].segments[segment_id]`. -/
def process_segment (peer_list : Nat → file_info) (number_of_tasks : Nat) (n_segments : Int)
    (m : ViewMsg) : Option (Nat → file_info) :=
  if m.segment_id < 0 ∨ m.segment_id ≥ n_segments ∨
      m.peer_id < 0 ∨ m.peer_id ≥ (number_of_tasks : Int) then none
  else
    some fun p =>
      if p = m.peer_id.toNat then
        { peer_list p with
          segments := fun k =>
            if k = m.segment_id.toNat then m.hash else (peer_list p).segments k }
      else peer_list p

/-- The receive loop of `getPeerList`; `none` stands for the return value
NULL. The end of the list stands for the end marker. -/
def getPeerList_loop (number_of_tasks : Nat) (n_segments : Int) :
    (Nat → file_info) → List ViewMsg → Option (Nat → file_info)
  | peer_list, [] => some peer_list
  | peer_list, m :: rest =>
    if m.signal = MSG_SEGMENT then
      match process_segment peer_list number_of_tasks n_segments m with
      | none => none
      | some pl => getPeerList_loop number_of_tasks n_segments pl rest
    else if m.signal = MSG_END_OF_MESSAGE then some peer_list
    else none

/-- Function `getPeerList`; `none` stands for the return value NULL. -/
def getPeerList (number_of_tasks : Nat) (file_id n_segments : Int) (stream : List ViewMsg) :
    Option (Nat → file_info) :=
  if number_of_tasks = 0 ∨ n_segments ≤ 0 then none
  else getPeerList_loop number_of_tasks n_segments (init_peer_list file_id n_segments) stream

/-! ## Peer side: the download duty (lines 564-716) -/

/-- Function `send_segment_update`: the UPDATE stream sent to the tracker. -/
def send_segment_update (file_id : Nat) (owned_file : file_info) : List Sent :=
  [(⟨0, 1, .int MSG_UPDATE⟩ : Sent)] ++
  ((List.range owned_file.n_segments.toNat).flatMap fun j =>
    if (owned_file.segments j).length > 0 then
      [(⟨0, 1, .int MSG_SEGMENT⟩ : Sent), ⟨0, 0, .int j⟩, ⟨0, 0, .int file_id⟩,
        ⟨0, 0, .chars (owned_file.segments j)⟩]
    else []) ++
  [⟨0, 1, .int MSG_END_OF_MESSAGE⟩]

/-- State of the pass of `download_thread_func` over one wished file: the
peer store `users_files`, the swarm view `peer_list`, the loop bound
`current_file.n_segments`, the counter `segments_processed`, and the messages
sent so far. -/
structure PassState where
  users_files : Nat → file_info
  peer_list : Nat → file_info
  n_segments : Int
  segments_processed : Int
  sent : List Sent

/-- What the receives of one iteration of the segment loop deliver: the
segment count and reply stream of a view refresh (read only when a refresh
is due) and the replies of the source peer (read only when a fetch is made). -/
structure SegmentInput where
  refresh_count : Int
  refresh_view : List ViewMsg
  replies : Nat → Int

/-- The refresh at the head of an iteration (lines 653-669): when
`segments_processed == MAX_FILES`, an UPDATE is sent, a fresh view is
requested and parsed, and the counter is reset. `none` when the fresh view is
NULL (the source goes on to dereference it). -/
def refresh_if_due (number_of_tasks file_id : Nat) (st : PassState) (inp : SegmentInput) :
    Option PassState :=
  if st.segments_processed = (MAX_FILES : Int) then
    match getPeerList number_of_tasks file_id inp.refresh_count inp.refresh_view with
    | none => none
    | some pl =>
      some { st with
        peer_list := pl
        n_segments := inp.refresh_count
        segments_processed := 0
        sent := st.sent ++ send_segment_update file_id (st.users_files file_id) ++
          [⟨0, 1, .int MSG_REQUEST⟩, ⟨0, 0, .int file_id⟩] }
  else some st

/-- The search for a source (lines 675-683): the first `p` in
`1 .. number_of_tasks - 1` with `p != rank` and a non-empty hash for `seg` in
the view, or -1. -/
def choose_peer (peer_list : Nat → file_info) (number_of_tasks rank seg : Nat) : Int :=
  match (peer_ranks number_of_tasks).find?
      (fun p => decide (p ≠ rank ∧ ((peer_list p).segments seg).length > 0)) with
  | some p => (p : Int)
  | none => -1

/-- The rest of an iteration (lines 671-694): skip a segment already held,
choose a source, skip when there is none, else fetch and, on success, copy
the hash of the source into the local record and count the segment. -/
def fetch_segment (number_of_tasks rank file_id : Nat) (st : PassState) (seg : Nat)
    (replies : Nat → Int) : PassState :=
  if ((st.users_files file_id).segments seg).length > 0 then st
  else
    let chosen_peer := choose_peer st.peer_list number_of_tasks rank seg
    if chosen_peer = -1 then st
    else
      let source_hash := (st.peer_list chosen_peer.toNat).segments seg
      let r := download_segment_from_peer chosen_peer.toNat source_hash replies
      if r.result ≠ 0 then
        { st with
          users_files := fun g =>
            if g = file_id then
              { st.users_files g with
                segments := fun k =>
                  if k = seg then source_hash else (st.users_files g).segments k }
            else st.users_files g
          segments_processed := st.segments_processed + 1
          sent := st.sent ++ r.sent }
      else { st with sent := st.sent ++ r.sent }

/-- The loop `for (seg = 0; seg < current_file.n_segments; seg++)`, from
index `seg`, with one input per iteration; `none` when the inputs run out
before the loop ends or a refreshed view is NULL. -/
def download_segments (number_of_tasks rank file_id : Nat) :
    List SegmentInput → Nat → PassState → Option PassState
  | [], seg, st => if (seg : Int) < st.n_segments then none else some st
  | inp :: rest, seg, st =>
    if (seg : Int) < st.n_segments then
      match refresh_if_due number_of_tasks file_id st inp with
      | none => none
      | some st1 =>
        download_segments number_of_tasks rank file_id rest (seg + 1)
          (fetch_segment number_of_tasks rank file_id st1 seg inp.replies)
    else some st

/-- What the receives of the pass over one wished file deliver: the segment
count and reply stream of the first REQUEST, and the inputs of the segment
loop. -/
structure FileInput where
  count : Int
  view : List ViewMsg
  segments : List SegmentInput

/-- One iteration of the loop over the wish list in `download_thread_func`
(lines 627-709): REQUEST, segment loop, FINISH. The result is the peer store
afterwards and the messages sent. When the first view is NULL the iteration
ends by `continue`, before the segment loop. (Writing the output file is not
modelled.) -/
def download_file (number_of_tasks rank : Nat) (users_files : Nat → file_info)
    (file_id : Nat) (inp : FileInput) : Option ((Nat → file_info) × List Sent) :=
  let request : List Sent := [⟨0, 1, .int MSG_REQUEST⟩, ⟨0, 0, .int file_id⟩]
  let store : Nat → file_info := fun g =>
    if g = file_id then
      { users_files g with file_number := file_id, n_segments := inp.count }
    else users_files g
  match getPeerList number_of_tasks file_id inp.count inp.view with
  | none => some (store, request)
  | some pl =>
    match download_segments number_of_tasks rank file_id inp.segments 0
        ⟨store, pl, inp.count, 0, request⟩ with
    | none => none
    | some st =>
      some (st.users_files, st.sent ++ [⟨0, 1, .int MSG_FINISH⟩, ⟨0, 0, .int file_id⟩])

/-- Function `download_thread_func`: the passes over the wished files in
order, then `MSG_TERMINATE` to the tracker. -/
def download_thread_func (number_of_tasks rank : Nat) :
    (Nat → file_info) → List (Nat × FileInput) → Option ((Nat → file_info) × List Sent)
  | users_files, [] => some (users_files, [⟨0, 1, .int MSG_TERMINATE⟩])
  | users_files, w :: rest =>
    match download_file number_of_tasks rank users_files w.1 w.2 with
    | none => none
    | some (store, sent) =>
      match download_thread_func number_of_tasks rank store rest with
      | none => none
      | some (store2, sent2) => some (store2, sent ++ sent2)

/-! ## Peer side: the upload duty (lines 721-796) -/

/-- Function `handle_segment_request`: the scan of the files `1 .. MAX_FILES`
of the peer store for the requested hash and the single reply. -/
def handle_segment_request (users_files : Nat → file_info) (sender_rank : Nat)
    (requested_hash : Hash) : List Sent :=
  let found : Bool :=
    (List.range' 1 MAX_FILES).any fun file_id =>
      decide ((users_files file_id).n_segments > 0) &&
      (List.range (users_files file_id).n_segments.toNat).any fun seg =>
        decide ((users_files file_id).segments seg = requested_hash)
  let signal : Int := if found then MSG_ACK else -1
  [⟨sender_rank, 0, .int signal⟩]

/-- One iteration of the loop of `upload_thread_func`: the switch on the
signal received on tag 1 from `sender_rank`; `requested_hash` is read only in
the `MSG_REQUEST` case. The result is the messages sent and `is_running`. -/
def upload_dispatch (users_files : Nat → file_info) (sender_rank : Nat) (signal : Int)
    (requested_hash : Hash) : List Sent × Bool :=
  if signal = MSG_REQUEST then
    (handle_segment_request users_files sender_rank requested_hash, true)
  else if signal = MSG_TERMINATE then ([], false)
  else ([], true)

/-- The store of a peer that owns nothing, as left by
`initialize_users_files`. -/
def empty_store : Nat → file_info := fun _ => zero_file

/-- The store of a peer that owns file 1 with the two hashes `hashA`, `hashB`. -/
def owner_store : Nat → file_info := fun g =>
  if g = 1 then
    { file_number := 1, n_segments := 2,
      segments := fun k => if k = 0 then hashA else if k = 1 then hashB else [],
      usage_count := 0 }
  else zero_file

/-- A swarm view in which peers 1 and 3 hold segment 0 and peer 3 holds
segment 1. -/
def sample_view : Nat → file_info := fun p =>
  if p = 1 then
    { file_number := 1, n_segments := 2, segments := fun k => if k = 0 then hashA else [],
      usage_count := 0 }
  else if p = 3 then
    { file_number := 1, n_segments := 2,
      segments := fun k => if k = 0 then hashA else if k = 1 then hashB else [],
      usage_count := 0 }
  else init_peer_list 1 2 p

/-- A hash of `HASH_SIZE` characters that `owner_store` does not hold. -/
def hashC : Hash := List.replicate 32 'c'

/-! # Theorems -/

/-! ## Projections of the array writes -/

@[simp] theorem set_swarm_swarms (d : TrackerData) (f p : Nat) (v : Int) (g q : Nat) :
    (set_swarm d f p v).swarms g q = if g = f ∧ q = p then v else d.swarms g q := rfl
@[simp] theorem set_swarm_seeds (d : TrackerData) (f p : Nat) (v : Int) :
    (set_swarm d f p v).seeds = d.seeds := rfl
@[simp] theorem set_swarm_all_files (d : TrackerData) (f p : Nat) (v : Int) :
    (set_swarm d f p v).all_files = d.all_files := rfl
@[simp] theorem set_swarm_number_of_tasks (d : TrackerData) (f p : Nat) (v : Int) :
    (set_swarm d f p v).number_of_tasks = d.number_of_tasks := rfl
@[simp] theorem set_swarm_n_clients (d : TrackerData) (f p : Nat) (v : Int) :
    (set_swarm d f p v).n_clients = d.n_clients := rfl

@[simp] theorem set_seed_seeds (d : TrackerData) (f p : Nat) (v : Int) (g q : Nat) :
    (set_seed d f p v).seeds g q = if g = f ∧ q = p then v else d.seeds g q := rfl
@[simp] theorem set_seed_swarms (d : TrackerData) (f p : Nat) (v : Int) :
    (set_seed d f p v).swarms = d.swarms := rfl
@[simp] theorem set_seed_all_files (d : TrackerData) (f p : Nat) (v : Int) :
    (set_seed d f p v).all_files = d.all_files := rfl
@[simp] theorem set_seed_number_of_tasks (d : TrackerData) (f p : Nat) (v : Int) :
    (set_seed d f p v).number_of_tasks = d.number_of_tasks := rfl
@[simp] theorem set_seed_n_clients (d : TrackerData) (f p : Nat) (v : Int) :
    (set_seed d f p v).n_clients = d.n_clients := rfl

@[simp] theorem set_file_number_swarms (d : TrackerData) (p f : Nat) (v : Int) :
    (set_file_number d p f v).swarms = d.swarms := rfl
@[simp] theorem set_file_number_seeds (d : TrackerData) (p f : Nat) (v : Int) :
    (set_file_number d p f v).seeds = d.seeds := rfl
@[simp] theorem set_file_number_number_of_tasks (d : TrackerData) (p f : Nat) (v : Int) :
    (set_file_number d p f v).number_of_tasks = d.number_of_tasks := rfl
@[simp] theorem set_file_number_n_clients (d : TrackerData) (p f : Nat) (v : Int) :
    (set_file_number d p f v).n_clients = d.n_clients := rfl
@[simp] theorem set_file_number_n_segments (d : TrackerData) (p f : Nat) (v : Int) (q g : Nat) :
    ((set_file_number d p f v).all_files q g).n_segments = (d.all_files q g).n_segments := by
  unfold set_file_number; dsimp only; split <;> rfl
@[simp] theorem set_file_number_segments (d : TrackerData) (p f : Nat) (v : Int) (q g : Nat) :
    ((set_file_number d p f v).all_files q g).segments = (d.all_files q g).segments := by
  unfold set_file_number; dsimp only; split <;> rfl
@[simp] theorem set_file_number_usage_count (d : TrackerData) (p f : Nat) (v : Int) (q g : Nat) :
    ((set_file_number d p f v).all_files q g).usage_count = (d.all_files q g).usage_count := by
  unfold set_file_number; dsimp only; split <;> rfl
@[simp] theorem set_file_number_file_number (d : TrackerData) (p f : Nat) (v : Int) (q g : Nat) :
    ((set_file_number d p f v).all_files q g).file_number =
      if q = p ∧ g = f then v else (d.all_files q g).file_number := by
  unfold set_file_number; dsimp only; split <;> rfl

@[simp] theorem set_n_segments_swarms (d : TrackerData) (p f : Nat) (v : Int) :
    (set_n_segments d p f v).swarms = d.swarms := rfl
@[simp] theorem set_n_segments_seeds (d : TrackerData) (p f : Nat) (v : Int) :
    (set_n_segments d p f v).seeds = d.seeds := rfl
@[simp] theorem set_n_segments_number_of_tasks (d : TrackerData) (p f : Nat) (v : Int) :
    (set_n_segments d p f v).number_of_tasks = d.number_of_tasks := rfl
@[simp] theorem set_n_segments_n_clients (d : TrackerData) (p f : Nat) (v : Int) :
    (set_n_segments d p f v).n_clients = d.n_clients := rfl
@[simp] theorem set_n_segments_n_segments (d : TrackerData) (p f : Nat) (v : Int) (q g : Nat) :
    ((set_n_segments d p f v).all_files q g).n_segments =
      if q = p ∧ g = f then v else (d.all_files q g).n_segments := by
  unfold set_n_segments; dsimp only; split <;> rfl
@[simp] theorem set_n_segments_segments (d : TrackerData) (p f : Nat) (v : Int) (q g : Nat) :
    ((set_n_segments d p f v).all_files q g).segments = (d.all_files q g).segments := by
  unfold set_n_segments; dsimp only; split <;> rfl
@[simp] theorem set_n_segments_usage_count (d : TrackerData) (p f : Nat) (v : Int) (q g : Nat) :
    ((set_n_segments d p f v).all_files q g).usage_count = (d.all_files q g).usage_count := by
  unfold set_n_segments; dsimp only; split <;> rfl
@[simp] theorem set_n_segments_file_number (d : TrackerData) (p f : Nat) (v : Int) (q g : Nat) :
    ((set_n_segments d p f v).all_files q g).file_number = (d.all_files q g).file_number := by
  unfold set_n_segments; dsimp only; split <;> rfl

@[simp] theorem set_segment_swarms (d : TrackerData) (p f j : Nat) (h : Hash) :
    (set_segment d p f j h).swarms = d.swarms := rfl
@[simp] theorem set_segment_seeds (d : TrackerData) (p f j : Nat) (h : Hash) :
    (set_segment d p f j h).seeds = d.seeds := rfl
@[simp] theorem set_segment_number_of_tasks (d : TrackerData) (p f j : Nat) (h : Hash) :
    (set_segment d p f j h).number_of_tasks = d.number_of_tasks := rfl
@[simp] theorem set_segment_n_clients (d : TrackerData) (p f j : Nat) (h : Hash) :
    (set_segment d p f j h).n_clients = d.n_clients := rfl
@[simp] theorem set_segment_n_segments (d : TrackerData) (p f j : Nat) (h : Hash) (q g : Nat) :
    ((set_segment d p f j h).all_files q g).n_segments = (d.all_files q g).n_segments := by
  unfold set_segment; dsimp only; split <;> rfl
@[simp] theorem set_segment_file_number (d : TrackerData) (p f j : Nat) (h : Hash) (q g : Nat) :
    ((set_segment d p f j h).all_files q g).file_number = (d.all_files q g).file_number := by
  unfold set_segment; dsimp only; split <;> rfl
@[simp] theorem set_segment_usage_count (d : TrackerData) (p f j : Nat) (h : Hash) (q g : Nat) :
    ((set_segment d p f j h).all_files q g).usage_count = (d.all_files q g).usage_count := by
  unfold set_segment; dsimp only; split <;> rfl
@[simp] theorem set_segment_segments (d : TrackerData) (p f j : Nat) (h : Hash) (q g k : Nat) :
    ((set_segment d p f j h).all_files q g).segments k =
      if q = p ∧ g = f ∧ k = j then h else (d.all_files q g).segments k := by
  unfold set_segment; dsimp only
  by_cases h1 : q = p ∧ g = f
  · by_cases h2 : k = j <;> simp [h1, h2]
  · have h3 : ¬ (q = p ∧ g = f ∧ k = j) := fun h => h1 ⟨h.1, h.2.1⟩
    simp [h1, h3]

theorem mem_peer_ranks (n i : Nat) : i ∈ peer_ranks n ↔ 1 ≤ i ∧ i < n := by
  unfold peer_ranks
  rw [List.mem_range'_1]
  omega

/-! ## FINISH: helper lemmas -/

/-- The inner copy loop of FINISH over an arbitrary list of indices. -/
theorem copy_fold_segments (sender i f : Nat) (js : List Nat) :
    ∀ (d : TrackerData) (q g k : Nat),
      ((js.foldl (fun d j => set_segment d sender f j
          (((d.all_files i f).segments j).take HASH_SIZE)) d).all_files q g).segments k =
        if q = sender ∧ g = f ∧ k ∈ js then ((d.all_files i f).segments k).take HASH_SIZE
        else (d.all_files q g).segments k := by
  induction js with
  | nil => intro d q g k; simp
  | cons j js ih =>
    intro d q g k
    rw [List.foldl_cons, ih]
    simp only [set_segment_segments, List.mem_cons]
    by_cases h1 : q = sender ∧ g = f
    · obtain ⟨rfl, rfl⟩ := h1
      by_cases h2 : k ∈ js
      · by_cases h3 : i = q ∧ k = j
        · obtain ⟨rfl, rfl⟩ := h3
          simp [h2, List.take_take]
        · simp [h2, h3]
      · by_cases h3 : k = j
        · subst h3; simp [h2]
        · simp [h2, h3]
    · have h5 : ¬ (q = sender ∧ g = f ∧ k ∈ js) := fun h => h1 ⟨h.1, h.2.1⟩
      have h6 : ¬ (q = sender ∧ g = f ∧ (k = j ∨ k ∈ js)) := fun h => h1 ⟨h.1, h.2.1⟩
      have h7 : ¬ (q = sender ∧ g = f ∧ k = j) := fun h => h1 ⟨h.1, h.2.1⟩
      simp [h5, h6, h7]

/-- The inner copy loop writes nothing but hash slots. -/
theorem copy_fold_frame (sender i f : Nat) (js : List Nat) :
    ∀ (d : TrackerData),
      let r := js.foldl (fun d j => set_segment d sender f j
          (((d.all_files i f).segments j).take HASH_SIZE)) d
      r.seeds = d.seeds ∧ r.swarms = d.swarms ∧ r.number_of_tasks = d.number_of_tasks ∧
      r.n_clients = d.n_clients ∧
      ∀ q g, (r.all_files q g).n_segments = (d.all_files q g).n_segments ∧
        (r.all_files q g).file_number = (d.all_files q g).file_number ∧
        (r.all_files q g).usage_count = (d.all_files q g).usage_count := by
  induction js with
  | nil => intro d; simp
  | cons j js ih =>
    intro d
    simp only [List.foldl_cons]
    have h := ih (set_segment d sender f j (((d.all_files i f).segments j).take HASH_SIZE))
    simp only [set_segment_seeds, set_segment_swarms, set_segment_number_of_tasks,
      set_segment_n_clients, set_segment_n_segments, set_segment_file_number,
      set_segment_usage_count] at h
    exact h

theorem copy_segments_segments (d : TrackerData) (sender i f q g k : Nat) :
    ((copy_segments d sender i f).all_files q g).segments k =
      if q = sender ∧ g = f ∧ (k : Int) < (d.all_files i f).n_segments then
        ((d.all_files i f).segments k).take HASH_SIZE
      else (d.all_files q g).segments k := by
  unfold copy_segments
  rw [copy_fold_segments]
  have h : k ∈ List.range (d.all_files i f).n_segments.toNat ↔
      (k : Int) < (d.all_files i f).n_segments := by
    rw [List.mem_range]; omega
  simp only [h]

theorem copy_segments_frame (d : TrackerData) (sender i f : Nat) :
    (copy_segments d sender i f).seeds = d.seeds ∧
    (copy_segments d sender i f).swarms = d.swarms ∧
    (copy_segments d sender i f).number_of_tasks = d.number_of_tasks ∧
    (copy_segments d sender i f).n_clients = d.n_clients ∧
    ∀ q g, ((copy_segments d sender i f).all_files q g).n_segments = (d.all_files q g).n_segments ∧
      ((copy_segments d sender i f).all_files q g).file_number = (d.all_files q g).file_number ∧
      ((copy_segments d sender i f).all_files q g).usage_count = (d.all_files q g).usage_count :=
  copy_fold_frame sender i f _ d

/-- The seed loop of FINISH over a list of peers none of which is a seed. -/
theorem finish_loop_no_seed (sender f : Nat) (l : List Nat) (d : TrackerData)
    (h : ∀ i ∈ l, d.seeds f i = 0) :
    l.foldl (fun d i => if d.seeds f i ≠ 0 then copy_segments d sender i f else d) d = d := by
  induction l with
  | nil => rfl
  | cons i l ih =>
    have hi : d.seeds f i = 0 := h i (List.mem_cons_self _ _)
    simp only [List.foldl_cons, hi, ne_eq, not_true_eq_false, if_false]
    exact ih (fun k hk => h k (List.mem_cons_of_mem _ hk))

/-- Invariant of the seed loop of FINISH, relative to the registry `s` before
the message: only the hash slots of the record of `sender` for `f` differ,
and that record either is untouched or holds a copy of one seed. -/
theorem finish_loop_inv (s : TrackerData) (sender f : Nat) (l : List Nat) :
    ∀ c : TrackerData,
      (∀ i ∈ l, 1 ≤ i ∧ i < s.number_of_tasks) →
      c.seeds = s.seeds → c.swarms = s.swarms → c.number_of_tasks = s.number_of_tasks →
      c.n_clients = s.n_clients →
      (∀ q g, (c.all_files q g).n_segments = (s.all_files q g).n_segments ∧
        (c.all_files q g).file_number = (s.all_files q g).file_number ∧
        (c.all_files q g).usage_count = (s.all_files q g).usage_count) →
      (∀ q g k, ¬ (q = sender ∧ g = f) →
        (c.all_files q g).segments k = (s.all_files q g).segments k) →
      ((∀ k, (c.all_files sender f).segments k = (s.all_files sender f).segments k) ∨
        ∃ i0, 1 ≤ i0 ∧ i0 < s.number_of_tasks ∧ s.seeds f i0 ≠ 0 ∧
          ∀ j : Nat, (j : Int) < (s.all_files i0 f).n_segments →
            (c.all_files sender f).segments j =
              ((s.all_files i0 f).segments j).take HASH_SIZE) →
      let r := l.foldl (fun d i => if d.seeds f i ≠ 0 then copy_segments d sender i f else d) c
      r.seeds = s.seeds ∧ r.swarms = s.swarms ∧ r.number_of_tasks = s.number_of_tasks ∧
      r.n_clients = s.n_clients ∧
      (∀ q g, (r.all_files q g).n_segments = (s.all_files q g).n_segments ∧
        (r.all_files q g).file_number = (s.all_files q g).file_number ∧
        (r.all_files q g).usage_count = (s.all_files q g).usage_count) ∧
      (∀ q g k, ¬ (q = sender ∧ g = f) →
        (r.all_files q g).segments k = (s.all_files q g).segments k) ∧
      (((∀ i ∈ l, s.seeds f i = 0) ∧
          ∀ k, (r.all_files sender f).segments k = (s.all_files sender f).segments k) ∨
        ∃ i0, 1 ≤ i0 ∧ i0 < s.number_of_tasks ∧ s.seeds f i0 ≠ 0 ∧
          ∀ j : Nat, (j : Int) < (s.all_files i0 f).n_segments →
            (r.all_files sender f).segments j =
              ((s.all_files i0 f).segments j).take HASH_SIZE) := by
  induction l with
  | nil =>
    intro c _ h1 h2 h3 h4 h5 h6 h7
    refine ⟨h1, h2, h3, h4, h5, h6, ?_⟩
    rcases h7 with h7 | h7
    · exact Or.inl ⟨by simp, h7⟩
    · exact Or.inr h7
  | cons i l ih =>
    intro c hl h1 h2 h3 h4 h5 h6 h7
    have hi := hl i (List.mem_cons_self _ _)
    have hl2 : ∀ k ∈ l, 1 ≤ k ∧ k < s.number_of_tasks :=
      fun k hk => hl k (List.mem_cons_of_mem _ hk)
    simp only [List.foldl_cons]
    by_cases hs : s.seeds f i = 0
    · have hc : c.seeds f i = 0 := by rw [h1]; exact hs
      simp only [hc, ne_eq, not_true_eq_false, if_false]
      have := ih c hl2 h1 h2 h3 h4 h5 h6 h7
      obtain ⟨r1, r2, r3, r4, r5, r6, r7⟩ := this
      refine ⟨r1, r2, r3, r4, r5, r6, ?_⟩
      rcases r7 with ⟨r7a, r7b⟩ | r7
      · left
        refine ⟨?_, r7b⟩
        intro k hk
        rcases List.mem_cons.mp hk with rfl | hk
        · exact hs
        · exact r7a k hk
      · exact Or.inr r7
    · have hc : c.seeds f i ≠ 0 := by rw [h1]; exact hs
      simp only [hc, ne_eq, not_false_eq_true, if_true]
      obtain ⟨f1, f2, f3, f4, f5⟩ := copy_segments_frame c sender i f
      have hcopy : ∃ i0, 1 ≤ i0 ∧ i0 < s.number_of_tasks ∧ s.seeds f i0 ≠ 0 ∧
          ∀ j : Nat, (j : Int) < (s.all_files i0 f).n_segments →
            ((copy_segments c sender i f).all_files sender f).segments j =
              ((s.all_files i0 f).segments j).take HASH_SIZE := by
        by_cases hip : i = sender
        · subst hip
          rcases h7 with h7 | ⟨i0, a1, a2, a3, a4⟩
          · refine ⟨i, hi.1, hi.2, hs, ?_⟩
            intro j hj
            rw [copy_segments_segments, (h5 i f).1]
            simp [hj, h7]
          · refine ⟨i0, a1, a2, a3, ?_⟩
            intro j hj
            rw [copy_segments_segments]
            by_cases hj2 : (j : Int) < (c.all_files i f).n_segments
            · simp [hj2, a4 j hj, List.take_take]
            · simp [hj2, a4 j hj]
        · refine ⟨i, hi.1, hi.2, hs, ?_⟩
          intro j hj
          rw [copy_segments_segments, (h5 i f).1]
          have : ¬ (i = sender ∧ f = f) := fun h => hip h.1
          simp [hj, h6 i f j this]
      have := ih (copy_segments c sender i f) hl2 (f1.trans h1) (f2.trans h2) (f3.trans h3)
        (f4.trans h4)
        (fun q g => ⟨((f5 q g).1).trans (h5 q g).1, ((f5 q g).2.1).trans (h5 q g).2.1,
          ((f5 q g).2.2).trans (h5 q g).2.2⟩)
        (fun q g k hne => by
          rw [copy_segments_segments]
          have : ¬ (q = sender ∧ g = f ∧ (k : Int) < (c.all_files i f).n_segments) :=
            fun h => hne ⟨h.1, h.2.1⟩
          simp only [this, if_false]
          exact h6 q g k hne)
        (Or.inr hcopy)
      obtain ⟨r1, r2, r3, r4, r5, r6, r7⟩ := this
      refine ⟨r1, r2, r3, r4, r5, r6, ?_⟩
      rcases r7 with ⟨r7a, r7b⟩ | r7
      · rcases hcopy with ⟨i0, a1, a2, a3, a4⟩
        -- the remaining peers are no seeds, so the copy made here survives
        right
        have hrest := finish_loop_no_seed sender f l (copy_segments c sender i f)
          (fun k hk => by rw [f1, h1]; exact r7a k hk)
        refine ⟨i0, a1, a2, a3, ?_⟩
        intro j hj
        rw [hrest]
        exact a4 j hj
      · exact Or.inr r7

/-! ## C1: FINISH with no seed -/

/-- Claim C1, as stated, fails: in the empty registry of three tasks no peer
is a seed of file 1, yet FINISH(1) from peer 1 puts peer 1 into `seeds[1]`,
so the registry is not left as it was. -/
theorem finish_without_seed_not_rejected :
    (∀ i, (init_tracker 3).seeds 1 i = 0) ∧
    (tracker_finish (init_tracker 3) 1 1).seeds 1 1 = 1 ∧
    tracker_finish (init_tracker 3) 1 1 ≠ init_tracker 3 := by
  refine ⟨fun _ => rfl, by decide, ?_⟩
  intro h
  have h2 : (tracker_finish (init_tracker 3) 1 1).seeds 1 1 = (init_tracker 3).seeds 1 1 := by
    rw [h]
  revert h2
  decide

/-- Claim C1, amended: when no peer `1 .. number_of_tasks - 1` is in
`seeds[f]` for an in-range `f`, FINISH(f) from `p` copies nothing: all file
records, the swarm table, the task count and the client counter are as
before, and the only change is that `seeds[f][p]` becomes 1. -/
theorem finish_without_seed_only_promotes (d : TrackerData) (p f : Nat)
    (hf : f ≤ MAX_FILES)
    (hno : ∀ i, 1 ≤ i → i < d.number_of_tasks → d.seeds f i = 0) :
    tracker_finish d p (f : Int) = set_seed d f p 1 ∧
    (tracker_finish d p (f : Int)).all_files = d.all_files ∧
    (tracker_finish d p (f : Int)).swarms = d.swarms ∧
    (tracker_finish d p (f : Int)).number_of_tasks = d.number_of_tasks ∧
    (tracker_finish d p (f : Int)).n_clients = d.n_clients ∧
    (tracker_finish d p (f : Int)).seeds f p = 1 ∧
    ∀ g q, ¬ (g = f ∧ q = p) → (tracker_finish d p (f : Int)).seeds g q = d.seeds g q := by
  have hrange : (f : Int) ≥ 0 ∧ (f : Int) ≤ (MAX_FILES : Int) := by
    constructor
    · omega
    · exact_mod_cast hf
  have hloop := finish_loop_no_seed p f (peer_ranks d.number_of_tasks) d
    (fun i hi => hno i ((mem_peer_ranks _ _).mp hi).1 ((mem_peer_ranks _ _).mp hi).2)
  have heq : tracker_finish d p (f : Int) = set_seed d f p 1 := by
    unfold tracker_finish
    simp only [hrange, and_self, if_true, Int.toNat_ofNat]
    rw [hloop]
  rw [heq]
  refine ⟨rfl, rfl, rfl, rfl, rfl, by simp, ?_⟩
  intro g q hne
  simp [hne]

theorem finish_without_seed_only_promotes_witness :
    (∀ i, 1 ≤ i → i < (init_tracker 3).number_of_tasks → (init_tracker 3).seeds 1 i = 0) ∧
    tracker_finish (init_tracker 3) 2 ((1 : Nat) : Int) = set_seed (init_tracker 3) 1 2 1 :=
  ⟨fun _ _ _ => rfl,
   (finish_without_seed_only_promotes (init_tracker 3) 2 1 (by decide) (fun _ _ _ => rfl)).1⟩

/-! ## C2: FINISH with a seed -/

/-- Claim C2: when some peer `1 .. number_of_tasks - 1` is in `seeds[f]`
(`f` in range), FINISH(f) from `p` leaves `p` in `seeds[f]`, and there is one
peer `i0` that was a seed of `f` before the message such that, at every index
`j` below the segment count (the one stored in the record of `i0`), the
record of `p` holds the first `HASH_SIZE` characters of the hash of `i0` at
`j`, that is the hash itself whenever it fits its buffer. -/
theorem finish_copies_one_seed (d : TrackerData) (p f : Nat)
    (hf : f ≤ MAX_FILES)
    (hseed : ∃ i, 1 ≤ i ∧ i < d.number_of_tasks ∧ d.seeds f i ≠ 0) :
    (tracker_finish d p (f : Int)).seeds f p ≠ 0 ∧
    ∃ i0, 1 ≤ i0 ∧ i0 < d.number_of_tasks ∧ d.seeds f i0 ≠ 0 ∧
      ∀ j : Nat, (j : Int) < (d.all_files i0 f).n_segments →
        ((tracker_finish d p (f : Int)).all_files p f).segments j =
            ((d.all_files i0 f).segments j).take HASH_SIZE ∧
        (((d.all_files i0 f).segments j).length ≤ HASH_SIZE →
          ((tracker_finish d p (f : Int)).all_files p f).segments j =
            (d.all_files i0 f).segments j) := by
  have hrange : (f : Int) ≥ 0 ∧ (f : Int) ≤ (MAX_FILES : Int) := by
    constructor
    · omega
    · exact_mod_cast hf
  have hinv := finish_loop_inv d p f (peer_ranks d.number_of_tasks) d
    (fun i hi => (mem_peer_ranks _ _).mp hi) rfl rfl rfl rfl
    (fun _ _ => ⟨rfl, rfl, rfl⟩) (fun _ _ _ _ => rfl) (Or.inl (fun _ => rfl))
  obtain ⟨-, -, -, -, -, -, r7⟩ := hinv
  unfold tracker_finish
  simp only [hrange, and_self, if_true, Int.toNat_ofNat]
  refine ⟨by simp, ?_⟩
  rcases r7 with ⟨r7a, -⟩ | ⟨i0, a1, a2, a3, a4⟩
  · obtain ⟨i, b1, b2, b3⟩ := hseed
    exact absurd (r7a i ((mem_peer_ranks _ _).mpr ⟨b1, b2⟩)) b3
  · refine ⟨i0, a1, a2, a3, ?_⟩
    intro j hj
    simp only [set_seed_all_files]
    refine ⟨a4 j hj, ?_⟩
    intro hlen
    rw [a4 j hj]
    exact List.take_of_length_le hlen

theorem finish_copies_one_seed_witness :
    (∃ i, 1 ≤ i ∧ i < one_owner.number_of_tasks ∧ one_owner.seeds 1 i ≠ 0) ∧
    (tracker_finish one_owner 2 ((1 : Nat) : Int)).seeds 1 2 ≠ 0 :=
  ⟨⟨1, by decide, by decide, by decide⟩,
   (finish_copies_one_seed one_owner 2 1 (by decide) ⟨1, by decide, by decide, by decide⟩).1⟩

/-! ## Registration: helper lemmas -/

/-- The propagation loop of `receive_file_info` over a list of ranks. -/
theorem fold_set_n_segments (f : Nat) (n : Int) (l : List Nat) :
    ∀ d : TrackerData,
      let r := l.foldl (fun d k => set_n_segments d k f n) d
      r.seeds = d.seeds ∧ r.swarms = d.swarms ∧ r.number_of_tasks = d.number_of_tasks ∧
      r.n_clients = d.n_clients ∧
      ∀ q g, (r.all_files q g).n_segments =
          (if q ∈ l ∧ g = f then n else (d.all_files q g).n_segments) ∧
        (r.all_files q g).file_number = (d.all_files q g).file_number ∧
        (r.all_files q g).usage_count = (d.all_files q g).usage_count ∧
        (r.all_files q g).segments = (d.all_files q g).segments := by
  induction l with
  | nil => intro d; simp
  | cons k l ih =>
    intro d
    simp only [List.foldl_cons]
    obtain ⟨h1, h2, h3, h4, h5⟩ := ih (set_n_segments d k f n)
    refine ⟨h1, h2, h3, h4, ?_⟩
    intro q g
    obtain ⟨a1, a2, a3, a4⟩ := h5 q g
    refine ⟨?_, by simpa using a2, by simpa using a3, by simpa using a4⟩
    rw [a1]
    simp only [set_n_segments_n_segments, List.mem_cons]
    by_cases hq : q ∈ l <;> by_cases hg : g = f <;> by_cases hk : q = k <;> simp [hq, hg, hk]

/-- The hash loop of `receive_file_info` writes hash slots of the sender for
the file only. -/
theorem receive_segments_loop_frame (f sender : Nat) (hashes : Nat → Hash) (m : Nat) :
    ∀ (k : Nat) (d : TrackerData),
      let r := (receive_segments_loop f sender hashes m k d).1
      r.seeds = d.seeds ∧ r.swarms = d.swarms ∧ r.number_of_tasks = d.number_of_tasks ∧
      r.n_clients = d.n_clients ∧
      ∀ q g, (r.all_files q g).n_segments = (d.all_files q g).n_segments ∧
        (r.all_files q g).file_number = (d.all_files q g).file_number ∧
        (r.all_files q g).usage_count = (d.all_files q g).usage_count ∧
        (¬ (q = sender ∧ g = f) → (r.all_files q g).segments = (d.all_files q g).segments) := by
  induction m with
  | zero => intro k d; simp [receive_segments_loop]
  | succ m ih =>
    intro k d
    simp only [receive_segments_loop, receive_segment_info]
    by_cases hlen : (hashes k).length = HASH_SIZE
    · simp only [hlen, ne_eq, not_true_eq_false, if_false]
      obtain ⟨h1, h2, h3, h4, h5⟩ := ih (k + 1) (set_segment d sender f k (hashes k))
      simp only [Int.lt_irrefl, if_false]
      refine ⟨h1, h2, h3, h4, ?_⟩
      intro q g
      obtain ⟨a1, a2, a3, a4⟩ := h5 q g
      refine ⟨by simpa using a1, by simpa using a2, by simpa using a3, ?_⟩
      intro hne
      rw [a4 hne]
      funext j
      have : ¬ (q = sender ∧ g = f ∧ j = k) := fun h => hne ⟨h.1, h.2.1⟩
      simp [this]
    · simp only [hlen, ne_eq, not_false_eq_true, if_true]
      refine ⟨rfl, rfl, rfl, rfl, ?_⟩
      intro q g
      refine ⟨by simp, by simp, by simp, ?_⟩
      intro hne
      funext j
      have : ¬ (q = sender ∧ g = f ∧ j = k) := fun h => hne ⟨h.1, h.2.1⟩
      simp [this]

/-- A registration whose file id is out of range leaves the registry as it was. -/
theorem receive_file_info_bad_file (d : TrackerData) (sender : Nat) (file_id n : Int)
    (hashes : Nat → Hash) (h : file_id < 0 ∨ file_id > (MAX_FILES : Int)) :
    (receive_file_info d sender file_id n hashes).1 = d := by
  simp [receive_file_info, validate_file_id, h]

/-- Effect of a registration with an in-range file id on the membership
tables, the counters and the segment counts. -/
theorem receive_file_info_effect (d : TrackerData) (sender : Nat) (file_id n : Int)
    (hashes : Nat → Hash) (h0 : 0 ≤ file_id) (h1 : file_id ≤ (MAX_FILES : Int)) :
    let r := (receive_file_info d sender file_id n hashes).1
    r.number_of_tasks = d.number_of_tasks ∧ r.n_clients = d.n_clients ∧
    (∀ g q, r.swarms g q = if g = file_id.toNat ∧ q = sender then 1 else d.swarms g q) ∧
    (∀ g q, r.seeds g q = if g = file_id.toNat ∧ q = sender then 1 else d.seeds g q) ∧
    (n ≤ 0 ∨ n > (MAX_CHUNKS : Int) → r.all_files = d.all_files) ∧
    (0 < n → n ≤ (MAX_CHUNKS : Int) → ∀ q g, (r.all_files q g).n_segments =
      if (q = sender ∨ (1 ≤ q ∧ q < d.number_of_tasks)) ∧ g = file_id.toNat then n
      else (d.all_files q g).n_segments) := by
  have hv : ¬ (file_id < 0 ∨ file_id > (MAX_FILES : Int)) := by omega
  by_cases hn : n ≤ 0 ∨ n > (MAX_CHUNKS : Int)
  · simp only [receive_file_info, validate_file_id, hv, if_false, hn, if_true]
    refine ⟨rfl, rfl, ?_, ?_, fun _ => rfl, ?_⟩
    · intro g q; simp
    · intro g q; simp
    · intro a b; omega
  · simp only [receive_file_info, validate_file_id, hv, if_false, hn]
    simp only [one_ne_zero, if_false]
    obtain ⟨a1, a2, a3, a4, a5⟩ := receive_segments_loop_frame file_id.toNat sender hashes
      n.toNat 0 ((peer_ranks (set_n_segments (set_file_number (set_seed
        (set_swarm d file_id.toNat sender 1) file_id.toNat sender 1) sender file_id.toNat
        file_id) sender file_id.toNat n).number_of_tasks).foldl
        (fun d k => set_n_segments d k file_id.toNat n) (set_n_segments (set_file_number
        (set_seed (set_swarm d file_id.toNat sender 1) file_id.toNat sender 1) sender
        file_id.toNat file_id) sender file_id.toNat n))
    obtain ⟨b1, b2, b3, b4, b5⟩ := fold_set_n_segments file_id.toNat n
      (peer_ranks (set_n_segments (set_file_number (set_seed
        (set_swarm d file_id.toNat sender 1) file_id.toNat sender 1) sender file_id.toNat
        file_id) sender file_id.toNat n).number_of_tasks)
      (set_n_segments (set_file_number
        (set_seed (set_swarm d file_id.toNat sender 1) file_id.toNat sender 1) sender
        file_id.toNat file_id) sender file_id.toNat n)
    refine ⟨?_, ?_, ?_, ?_, ?_, ?_⟩
    · rw [a3, b3]; rfl
    · rw [a4, b4]; rfl
    · intro g q; rw [a2, b2]; simp
    · intro g q; rw [a1, b1]; simp
    · intro h; exact h.elim
    · intro _ _ q g
      rw [(a5 q g).1, (b5 q g).1]
      simp only [set_n_segments_number_of_tasks, set_file_number_number_of_tasks,
        set_seed_number_of_tasks, set_swarm_number_of_tasks, mem_peer_ranks,
        set_n_segments_n_segments, set_file_number_n_segments, set_seed_all_files,
        set_swarm_all_files]
      by_cases hg : g = file_id.toNat <;> by_cases hq : q = sender <;>
        by_cases hp : (1 ≤ q ∧ q < d.number_of_tasks) <;> simp [hg, hq, hp]

/-! ## UPDATE and FINISH: what they leave alone -/

theorem segment_ne_end : ¬ (MSG_SEGMENT = MSG_END_OF_MESSAGE) := by decide

/-- Fields that `handle_update` never writes. -/
theorem handle_update_frame (sender : Nat) (l : List UpdateMsg) :
    ∀ d : TrackerData,
      (handle_update sender d l).seeds = d.seeds ∧
      (handle_update sender d l).number_of_tasks = d.number_of_tasks ∧
      (handle_update sender d l).n_clients = d.n_clients ∧
      ∀ q g, ((handle_update sender d l).all_files q g).n_segments =
          (d.all_files q g).n_segments ∧
        ((handle_update sender d l).all_files q g).file_number =
          (d.all_files q g).file_number ∧
        ((handle_update sender d l).all_files q g).usage_count =
          (d.all_files q g).usage_count := by
  induction l with
  | nil => intro d; simp [handle_update]
  | cons m rest ih =>
    intro d
    unfold handle_update
    by_cases h1 : m.signal = MSG_END_OF_MESSAGE
    · simp [h1]
    · by_cases h2 : m.signal = MSG_SEGMENT
      · by_cases h3 : m.file_id < 0 ∨ m.file_id > (MAX_FILES : Int) ∨
            m.segment_id < 0 ∨ m.segment_id ≥ (MAX_CHUNKS : Int)
        · simp only [h1, h2, h3, if_true, if_false]
          exact ih d
        · simp only [h1, h2, h3, if_true, if_false]
          have h := ih (set_swarm (set_segment d sender m.file_id.toNat m.segment_id.toNat
            m.hash) m.file_id.toNat sender 1)
          simpa using h
      · simp only [h1, h2, if_false]
        exact ih d

/-- Hash slots after `handle_update`. -/
theorem handle_update_segments (sender : Nat) (l : List UpdateMsg) :
    ∀ (d : TrackerData) (q g k : Nat),
      ((handle_update sender d l).all_files q g).segments k =
        if q = sender then (last_update g k l).getD ((d.all_files q g).segments k)
        else (d.all_files q g).segments k := by
  induction l with
  | nil => intro d q g k; simp [handle_update, last_update]
  | cons m rest ih =>
    intro d q g k
    unfold handle_update last_update
    by_cases h1 : m.signal = MSG_END_OF_MESSAGE
    · simp [h1]
    · by_cases h2 : m.signal = MSG_SEGMENT
      · by_cases h3 : m.file_id < 0 ∨ m.file_id > (MAX_FILES : Int) ∨
            m.segment_id < 0 ∨ m.segment_id ≥ (MAX_CHUNKS : Int)
        · simp only [h1, h2, h3, if_true, if_false]
          exact ih d q g k
        · simp only [h1, h2, h3, segment_ne_end, if_true, if_false]
          rw [ih]
          simp only [set_swarm_all_files, set_segment_segments]
          by_cases hq : q = sender
          · subst hq
            cases hlast : last_update g k rest with
            | some h => simp
            | none =>
              by_cases hm : m.file_id.toNat = g ∧ m.segment_id.toNat = k
              · obtain ⟨rfl, rfl⟩ := hm
                simp
              · have hm2 : ¬ (g = m.file_id.toNat ∧ k = m.segment_id.toNat) :=
                  fun h => hm ⟨h.1.symm, h.2.symm⟩
                simp [hm, hm2]
          · simp [hq]
      · simp only [h1, h2, if_false]
        exact ih d q g k

/-- Swarm table after `handle_update`. -/
theorem handle_update_swarms (sender : Nat) (l : List UpdateMsg) :
    ∀ (d : TrackerData) (g q : Nat),
      (handle_update sender d l).swarms g q =
        if q = sender ∧ updates_file g l = true then 1 else d.swarms g q := by
  induction l with
  | nil => intro d g q; simp [handle_update, updates_file]
  | cons m rest ih =>
    intro d g q
    unfold handle_update updates_file
    by_cases h1 : m.signal = MSG_END_OF_MESSAGE
    · simp [h1]
    · by_cases h2 : m.signal = MSG_SEGMENT
      · by_cases h3 : m.file_id < 0 ∨ m.file_id > (MAX_FILES : Int) ∨
            m.segment_id < 0 ∨ m.segment_id ≥ (MAX_CHUNKS : Int)
        · simp only [h1, h2, h3, if_true, if_false]
          exact ih d g q
        · simp only [h1, h2, h3, segment_ne_end, if_true, if_false]
          rw [ih]
          simp only [set_swarm_swarms, set_segment_swarms, Bool.or_eq_true, decide_eq_true_eq]
          have hsym : m.file_id.toNat = g ↔ g = m.file_id.toNat := eq_comm
          simp only [hsym]
          by_cases hq : q = sender <;> by_cases hu : updates_file g rest = true <;>
            by_cases hg : g = m.file_id.toNat <;> simp [hq, hu, hg]
      · simp only [h1, h2, if_false]
        exact ih d g q

/-- Fields that the FINISH case never writes. -/
theorem tracker_finish_frame (d : TrackerData) (sender : Nat) (file_id : Int) :
    (tracker_finish d sender file_id).swarms = d.swarms ∧
    (tracker_finish d sender file_id).number_of_tasks = d.number_of_tasks ∧
    (tracker_finish d sender file_id).n_clients = d.n_clients ∧
    (∀ q g, ((tracker_finish d sender file_id).all_files q g).n_segments =
        (d.all_files q g).n_segments ∧
      ((tracker_finish d sender file_id).all_files q g).file_number =
        (d.all_files q g).file_number ∧
      ((tracker_finish d sender file_id).all_files q g).usage_count =
        (d.all_files q g).usage_count) ∧
    (∀ q g k, ¬ (q = sender ∧ g = file_id.toNat) →
      ((tracker_finish d sender file_id).all_files q g).segments k =
        (d.all_files q g).segments k) := by
  unfold tracker_finish
  by_cases h : file_id ≥ 0 ∧ file_id ≤ (MAX_FILES : Int)
  · simp only [h, and_self, if_true]
    obtain ⟨-, r2, r3, r4, r5, r6, -⟩ := finish_loop_inv d sender file_id.toNat
      (peer_ranks d.number_of_tasks) d
      (fun i hi => (mem_peer_ranks _ _).mp hi) rfl rfl rfl rfl
      (fun _ _ => ⟨rfl, rfl, rfl⟩) (fun _ _ _ _ => rfl) (Or.inl (fun _ => rfl))
    exact ⟨r2, r3, r4, r5, r6⟩
  · simp [h]

/-- Every iteration of the main loop keeps the task count and every stored
segment count. -/
theorem tracker_dispatch_counts (d : TrackerData) (m : Incoming) :
    (tracker_dispatch d m).1.number_of_tasks = d.number_of_tasks ∧
    ∀ q g, ((tracker_dispatch d m).1.all_files q g).n_segments =
      (d.all_files q g).n_segments := by
  unfold tracker_dispatch
  by_cases h1 : m.signal = MSG_REQUEST
  · rw [if_pos h1]; exact ⟨rfl, fun _ _ => rfl⟩
  · rw [if_neg h1]
    by_cases h2 : m.signal = MSG_UPDATE
    · rw [if_pos h2]
      obtain ⟨-, a2, -, a4⟩ := handle_update_frame m.sender m.updates d
      exact ⟨a2, fun q g => (a4 q g).1⟩
    · rw [if_neg h2]
      by_cases h3 : m.signal = MSG_FINISH
      · rw [if_pos h3]
        obtain ⟨-, a2, -, a4, -⟩ := tracker_finish_frame d m.sender m.file_id
        exact ⟨a2, fun q g => (a4 q g).1⟩
      · rw [if_neg h3]
        by_cases h4 : m.signal = MSG_TERMINATE
        · rw [if_pos h4]; exact ⟨rfl, fun _ _ => rfl⟩
        · rw [if_neg h4]; exact ⟨rfl, fun _ _ => rfl⟩

/-! ## C3: membership after the initial registrations -/

/-- Membership tables after a sequence of registrations with in-range file
ids, from any registry. -/
theorem register_all_membership (rs : List Registration) :
    ∀ d : TrackerData,
      (∀ r ∈ rs, 0 ≤ r.file_id ∧ r.file_id ≤ (MAX_FILES : Int)) →
      ∀ f p : Nat,
        ((register_all d rs).swarms f p ≠ 0 ↔
          (d.swarms f p ≠ 0 ∨ ∃ r ∈ rs, r.sender = p ∧ r.file_id = (f : Int))) ∧
        ((register_all d rs).seeds f p ≠ 0 ↔
          (d.seeds f p ≠ 0 ∨ ∃ r ∈ rs, r.sender = p ∧ r.file_id = (f : Int))) := by
  induction rs with
  | nil => intro d _ f p; simp [register_all]
  | cons r rs ih =>
    intro d hv f p
    have hr := hv r (List.mem_cons_self _ _)
    have hrest : ∀ r ∈ rs, 0 ≤ r.file_id ∧ r.file_id ≤ (MAX_FILES : Int) :=
      fun x hx => hv x (List.mem_cons_of_mem _ hx)
    obtain ⟨-, -, e3, e4, -, -⟩ :=
      receive_file_info_effect d r.sender r.file_id r.n_segments r.hashes hr.1 hr.2
    have hstep := ih (register d r) hrest f p
    have hfold : register_all d (r :: rs) = register_all (register d r) rs := rfl
    have hid : r.file_id.toNat = f ↔ r.file_id = (f : Int) := by omega
    rw [hfold]
    constructor
    · rw [hstep.1]
      unfold register
      rw [e3 f p]
      constructor
      · rintro (h | ⟨x, hx, hx2⟩)
        · by_cases hc : f = r.file_id.toNat ∧ p = r.sender
          · exact Or.inr ⟨r, List.mem_cons_self _ _, hc.2.symm, hid.mp hc.1.symm⟩
          · rw [if_neg hc] at h; exact Or.inl h
        · exact Or.inr ⟨x, List.mem_cons_of_mem _ hx, hx2⟩
      · rintro (h | ⟨x, hx, hx2⟩)
        · by_cases hc : f = r.file_id.toNat ∧ p = r.sender
          · left; rw [if_pos hc]; decide
          · left; rw [if_neg hc]; exact h
        · rcases List.mem_cons.mp hx with rfl | hx
          · left
            rw [if_pos ⟨(hid.mpr hx2.2).symm, hx2.1.symm⟩]; decide
          · exact Or.inr ⟨x, hx, hx2⟩
    · rw [hstep.2]
      unfold register
      rw [e4 f p]
      constructor
      · rintro (h | ⟨x, hx, hx2⟩)
        · by_cases hc : f = r.file_id.toNat ∧ p = r.sender
          · exact Or.inr ⟨r, List.mem_cons_self _ _, hc.2.symm, hid.mp hc.1.symm⟩
          · rw [if_neg hc] at h; exact Or.inl h
        · exact Or.inr ⟨x, List.mem_cons_of_mem _ hx, hx2⟩
      · rintro (h | ⟨x, hx, hx2⟩)
        · by_cases hc : f = r.file_id.toNat ∧ p = r.sender
          · left; rw [if_pos hc]; decide
          · left; rw [if_neg hc]; exact h
        · rcases List.mem_cons.mp hx with rfl | hx
          · left
            rw [if_pos ⟨(hid.mpr hx2.2).symm, hx2.1.symm⟩]; decide
          · exact Or.inr ⟨x, hx, hx2⟩

/-- Claim C3: from the empty registry of `init_tracker`, after any sequence
of valid registrations, for every file `f` and peer `p`: `p` is in `swarm[f]`
iff `p` is in `seeds[f]` iff `p` registered `f` in the sequence. -/
theorem registered_peers_are_swarm_and_seeds (number_of_tasks : Nat)
    (rs : List Registration) (hvalid : ∀ r ∈ rs, valid_registration number_of_tasks r)
    (f p : Nat) :
    ((register_all (init_tracker number_of_tasks) rs).swarms f p ≠ 0 ↔
      (register_all (init_tracker number_of_tasks) rs).seeds f p ≠ 0) ∧
    ((register_all (init_tracker number_of_tasks) rs).seeds f p ≠ 0 ↔
      ∃ r ∈ rs, r.sender = p ∧ r.file_id = (f : Int)) := by
  have h := register_all_membership rs (init_tracker number_of_tasks)
    (fun r hr => ⟨(hvalid r hr).2.2.1, (hvalid r hr).2.2.2.1⟩) f p
  have z1 : (init_tracker number_of_tasks).swarms f p = 0 := rfl
  have z2 : (init_tracker number_of_tasks).seeds f p = 0 := rfl
  simp only [z1, z2, ne_eq, not_true_eq_false, false_or] at h
  exact ⟨h.1.trans h.2.symm, h.2⟩

theorem registered_peers_are_swarm_and_seeds_witness :
    (∀ r ∈ [(⟨1, 1, 2, fun _ => hashA⟩ : Registration)], valid_registration 3 r) ∧
    ((register_all (init_tracker 3) [⟨1, 1, 2, fun _ => hashA⟩]).seeds 1 1 ≠ 0 ↔
      ∃ r ∈ [(⟨1, 1, 2, fun _ => hashA⟩ : Registration)],
        r.sender = 1 ∧ r.file_id = ((1 : Nat) : Int)) :=
  ⟨by intro r hr; rw [List.mem_singleton] at hr; subst hr; decide,
   (registered_peers_are_swarm_and_seeds 3 [⟨1, 1, 2, fun _ => hashA⟩]
      (by intro r hr; rw [List.mem_singleton] at hr; subst hr; decide) 1 1).2⟩

/-! ## C4 and C5: segment counts -/

/-- A registration keeps the task count, and either keeps every stored
segment count or passed both range checks and stored its count in the record
of the sender and of every peer for its file. -/
theorem register_counts (d : TrackerData) (r : Registration) :
    (register d r).number_of_tasks = d.number_of_tasks ∧
    ((∀ q g, ((register d r).all_files q g).n_segments = (d.all_files q g).n_segments) ∨
      (0 ≤ r.file_id ∧ r.file_id ≤ (MAX_FILES : Int) ∧ 0 < r.n_segments ∧
        r.n_segments ≤ (MAX_CHUNKS : Int) ∧
        ∀ q g, ((register d r).all_files q g).n_segments =
          if (q = r.sender ∨ (1 ≤ q ∧ q < d.number_of_tasks)) ∧ g = r.file_id.toNat
          then r.n_segments else (d.all_files q g).n_segments)) := by
  unfold register
  by_cases hf : r.file_id < 0 ∨ r.file_id > (MAX_FILES : Int)
  · rw [receive_file_info_bad_file d r.sender r.file_id r.n_segments r.hashes hf]
    exact ⟨rfl, Or.inl (fun _ _ => rfl)⟩
  · have h0 : 0 ≤ r.file_id := by omega
    have h1 : r.file_id ≤ (MAX_FILES : Int) := by omega
    obtain ⟨e1, -, -, -, e5, e6⟩ :=
      receive_file_info_effect d r.sender r.file_id r.n_segments r.hashes h0 h1
    refine ⟨e1, ?_⟩
    by_cases hn : r.n_segments ≤ 0 ∨ r.n_segments > (MAX_CHUNKS : Int)
    · left
      intro q g
      rw [e5 hn]
    · right
      exact ⟨h0, h1, by omega, by omega, e6 (by omega) (by omega)⟩

/-- A registration that returns 0 passed both range checks. -/
theorem receive_file_info_success (d : TrackerData) (sender : Nat) (file_id n : Int)
    (hashes : Nat → Hash) (h : (receive_file_info d sender file_id n hashes).2 = 0) :
    0 ≤ file_id ∧ file_id ≤ (MAX_FILES : Int) ∧ 0 < n ∧ n ≤ (MAX_CHUNKS : Int) := by
  by_cases hf : file_id < 0 ∨ file_id > (MAX_FILES : Int)
  · simp [receive_file_info, validate_file_id, hf] at h
  · by_cases hn : n ≤ 0 ∨ n > (MAX_CHUNKS : Int)
    · simp [receive_file_info, validate_file_id, hf, hn] at h
    · omega

/-- One tracker operation keeps the task count, and either keeps every stored
segment count or is a registration that stored its count for its file. -/
theorem tracker_event_counts (d : TrackerData) (e : TrackerEvent) :
    (tracker_event d e).number_of_tasks = d.number_of_tasks ∧
    ((∀ q g, ((tracker_event d e).all_files q g).n_segments = (d.all_files q g).n_segments) ∨
      ∃ r, e = .registration r ∧
        0 ≤ r.file_id ∧ r.file_id ≤ (MAX_FILES : Int) ∧ 0 < r.n_segments ∧
        r.n_segments ≤ (MAX_CHUNKS : Int) ∧
        ∀ q g, ((tracker_event d e).all_files q g).n_segments =
          if (q = r.sender ∨ (1 ≤ q ∧ q < d.number_of_tasks)) ∧ g = r.file_id.toNat
          then r.n_segments else (d.all_files q g).n_segments) := by
  cases e with
  | registration r =>
    obtain ⟨h1, h2⟩ := register_counts d r
    refine ⟨h1, ?_⟩
    rcases h2 with h2 | h2
    · exact Or.inl h2
    · exact Or.inr ⟨r, rfl, h2⟩
  | incoming m =>
    obtain ⟨h1, h2⟩ := tracker_dispatch_counts d m
    exact ⟨h1, Or.inl h2⟩

theorem tracker_run_number_of_tasks (es : List TrackerEvent) :
    ∀ d : TrackerData, (tracker_run d es).number_of_tasks = d.number_of_tasks := by
  induction es with
  | nil => intro d; rfl
  | cons e es ih =>
    intro d
    have : tracker_run d (e :: es) = tracker_run (tracker_event d e) es := rfl
    rw [this, ih, (tracker_event_counts d e).1]

/-- Agreement of the segment counts of the peer records is kept by every
sequence of tracker operations. -/
theorem tracker_run_counts_agree (es : List TrackerEvent) :
    ∀ d : TrackerData,
      (∀ f p q, 1 ≤ p → p < d.number_of_tasks → 1 ≤ q → q < d.number_of_tasks →
        (d.all_files p f).n_segments = (d.all_files q f).n_segments) →
      ∀ f p q, 1 ≤ p → p < d.number_of_tasks → 1 ≤ q → q < d.number_of_tasks →
        ((tracker_run d es).all_files p f).n_segments =
          ((tracker_run d es).all_files q f).n_segments := by
  induction es with
  | nil => intro d h; exact h
  | cons e es ih =>
    intro d h f p q hp1 hp2 hq1 hq2
    have hrun : tracker_run d (e :: es) = tracker_run (tracker_event d e) es := rfl
    obtain ⟨hN, hc⟩ := tracker_event_counts d e
    rw [hrun]
    refine ih (tracker_event d e) ?_ f p q hp1 (by rw [hN]; exact hp2)
      hq1 (by rw [hN]; exact hq2)
    intro f p q hp1 hp2 hq1 hq2
    rw [hN] at hp2 hq2
    rcases hc with hc | ⟨r, -, -, -, -, -, hc⟩
    · rw [hc, hc]; exact h f p q hp1 hp2 hq1 hq2
    · rw [hc, hc]
      have a : (p = r.sender ∨ (1 ≤ p ∧ p < d.number_of_tasks)) := Or.inr ⟨hp1, hp2⟩
      have b : (q = r.sender ∨ (1 ≤ q ∧ q < d.number_of_tasks)) := Or.inr ⟨hq1, hq2⟩
      by_cases hg : f = r.file_id.toNat
      · simp [a, b, hg]
      · simp [hg]
        exact h f p q hp1 hp2 hq1 hq2

/-- Claim C4: in every registry reached from the empty registry by
registrations and main-loop messages (REQUEST, UPDATE, FINISH, TERMINATE),
the records of all peers `1 .. number_of_tasks - 1` for a file store the same
segment count; and after a registration that succeeds (returns 0) for file
`f` with count `n`, the record of every peer for `f` stores `n`. -/
theorem segment_counts_agree (number_of_tasks : Nat) (es : List TrackerEvent) :
    (∀ f p q, 1 ≤ p → p < number_of_tasks → 1 ≤ q → q < number_of_tasks →
      ((tracker_run (init_tracker number_of_tasks) es).all_files p f).n_segments =
        ((tracker_run (init_tracker number_of_tasks) es).all_files q f).n_segments) ∧
    (∀ r : Registration,
      (receive_file_info (tracker_run (init_tracker number_of_tasks) es)
          r.sender r.file_id r.n_segments r.hashes).2 = 0 →
      ∀ p, 1 ≤ p → p < number_of_tasks →
        ((register (tracker_run (init_tracker number_of_tasks) es) r).all_files p
          r.file_id.toNat).n_segments = r.n_segments) := by
  constructor
  · exact tracker_run_counts_agree es (init_tracker number_of_tasks)
      (fun _ _ _ _ _ _ _ => rfl)
  · intro r hr p hp1 hp2
    obtain ⟨h0, h1, h2, h3⟩ := receive_file_info_success _ _ _ _ _ hr
    obtain ⟨-, -, -, -, -, e6⟩ := receive_file_info_effect
      (tracker_run (init_tracker number_of_tasks) es) r.sender r.file_id r.n_segments
      r.hashes h0 h1
    unfold register
    rw [e6 h2 h3]
    have hN : (tracker_run (init_tracker number_of_tasks) es).number_of_tasks =
        number_of_tasks := tracker_run_number_of_tasks es _
    rw [hN]
    simp [hp1, hp2]

theorem segment_counts_agree_witness :
    ((tracker_run (init_tracker 3)
        [.registration ⟨1, 1, 2, fun _ => hashA⟩]).all_files 1 1).n_segments =
      ((tracker_run (init_tracker 3)
        [.registration ⟨1, 1, 2, fun _ => hashA⟩]).all_files 2 1).n_segments :=
  (segment_counts_agree 3 [.registration ⟨1, 1, 2, fun _ => hashA⟩]).1 1 1 2
    (by decide) (by decide) (by decide) (by decide)

/-- Claim C5, as stated, fails: peer 1 registers file 1 with 2 segments, so
every peer record of file 1 stores 2; the later valid registration of file 1
by peer 2 with 3 segments changes the count in the record of peer 1 to 3. -/
theorem later_registration_changes_count :
    (one_owner.all_files 1 1).n_segments = 2 ∧
    (one_owner.all_files 2 1).n_segments = 2 ∧
    valid_registration 3 ⟨2, 1, 3, fun _ => hashB⟩ ∧
    two_counts = register one_owner ⟨2, 1, 3, fun _ => hashB⟩ ∧
    (two_counts.all_files 1 1).n_segments = 3 := by
  refine ⟨by decide, by decide, by decide, rfl, by decide⟩

/-- Segment counts of the peer records of file `f` stay `n` along operations
that are not registrations of `f` with another in-range count. -/
theorem tracker_run_keeps_count (f : Nat) (n : Int) (es : List TrackerEvent) :
    ∀ d : TrackerData,
      (∀ e ∈ es, keeps_count f n e) →
      (∀ p, 1 ≤ p → p < d.number_of_tasks → (d.all_files p f).n_segments = n) →
      ∀ p, 1 ≤ p → p < d.number_of_tasks →
        ((tracker_run d es).all_files p f).n_segments = n := by
  induction es with
  | nil => intro d _ h; exact h
  | cons e es ih =>
    intro d hk h p hp1 hp2
    have hrun : tracker_run d (e :: es) = tracker_run (tracker_event d e) es := rfl
    obtain ⟨hN, hc⟩ := tracker_event_counts d e
    rw [hrun]
    refine ih (tracker_event d e) (fun x hx => hk x (List.mem_cons_of_mem _ hx)) ?_ p hp1
      (by rw [hN]; exact hp2)
    intro p hp1 hp2
    rw [hN] at hp2
    rcases hc with hc | ⟨r, he, r0, r1, r2, r3, hc⟩
    · rw [hc]; exact h p hp1 hp2
    · rw [hc]
      have hke := hk e (List.mem_cons_self _ _)
      subst he
      simp only [keeps_count] at hke
      by_cases hg : f = r.file_id.toNat
      · have hn : r.n_segments = n := by
          rcases hke with hke | hke | hke | hke
          · exact absurd (by omega : r.file_id = (f : Int)) hke
          · exact hke
          · omega
          · omega
        simp [hg, hp1, hp2, hn]
      · simp [hg]
        exact h p hp1 hp2

/-- Claim C5, amended: once a registration has stored the segment count `n`
for file `f`, the count in every peer record of `f` stays `n` along any later
sequence of REQUEST, UPDATE, FINISH and TERMINATE messages, registrations of
other files, registrations of `f` that carry `n` again and registrations of
`f` rejected for their count; a later registration of `f` whose count `m` is
in `1 .. MAX_CHUNKS` stores `m` in every peer record of `f`. -/
theorem segment_count_kept_unless_reregistered (d : TrackerData) (r : Registration)
    (hf : 0 ≤ r.file_id ∧ r.file_id ≤ (MAX_FILES : Int))
    (hn : 0 < r.n_segments ∧ r.n_segments ≤ (MAX_CHUNKS : Int)) :
    (∀ es : List TrackerEvent, (∀ e ∈ es, keeps_count r.file_id.toNat r.n_segments e) →
      ∀ p, 1 ≤ p → p < d.number_of_tasks →
        ((tracker_run (register d r) es).all_files p r.file_id.toNat).n_segments =
          r.n_segments) ∧
    (∀ (es : List TrackerEvent) (r2 : Registration), r2.file_id = r.file_id →
      0 < r2.n_segments → r2.n_segments ≤ (MAX_CHUNKS : Int) →
      ∀ p, 1 ≤ p → p < d.number_of_tasks →
        ((register (tracker_run (register d r) es) r2).all_files p
          r.file_id.toNat).n_segments = r2.n_segments) := by
  obtain ⟨e1, -, -, -, -, e6⟩ :=
    receive_file_info_effect d r.sender r.file_id r.n_segments r.hashes hf.1 hf.2
  have hN : (register d r).number_of_tasks = d.number_of_tasks := e1
  constructor
  · intro es hes p hp1 hp2
    refine tracker_run_keeps_count r.file_id.toNat r.n_segments es (register d r) hes ?_ p hp1
      (by rw [hN]; exact hp2)
    intro p hp1 hp2
    rw [hN] at hp2
    unfold register
    rw [e6 hn.1 hn.2]
    simp [hp1, hp2]
  · intro es r2 h2f h2a h2b p hp1 hp2
    obtain ⟨-, -, -, -, -, e6b⟩ := receive_file_info_effect (tracker_run (register d r) es)
      r2.sender r2.file_id r2.n_segments r2.hashes (by rw [h2f]; exact hf.1)
      (by rw [h2f]; exact hf.2)
    have hgoal : ((register (tracker_run (register d r) es) r2).all_files p
        r.file_id.toNat).n_segments =
        if (p = r2.sender ∨ 1 ≤ p ∧ p < (tracker_run (register d r) es).number_of_tasks) ∧
          r.file_id.toNat = r2.file_id.toNat then r2.n_segments
        else ((tracker_run (register d r) es).all_files p r.file_id.toNat).n_segments :=
      e6b h2a h2b p r.file_id.toNat
    rw [hgoal, tracker_run_number_of_tasks, hN, h2f]
    simp [hp1, hp2]

theorem segment_count_kept_unless_reregistered_witness :
    (0 ≤ (1 : Int) ∧ (1 : Int) ≤ (MAX_FILES : Int)) ∧
    (0 < (2 : Int) ∧ (2 : Int) ≤ (MAX_CHUNKS : Int)) ∧
    ((tracker_run (register (init_tracker 3) ⟨1, 1, 2, fun _ => hashA⟩)
        [.incoming ⟨2, MSG_FINISH, 1, []⟩]).all_files 2
      (1 : Int).toNat).n_segments = 2 :=
  ⟨by decide, by decide,
   (segment_count_kept_unless_reregistered (init_tracker 3) ⟨1, 1, 2, fun _ => hashA⟩
      (by decide) (by decide)).1 [.incoming ⟨2, MSG_FINISH, 1, []⟩]
      (by intro e he; rw [List.mem_singleton] at he; subst he; trivial)
      2 (by decide) (by decide)⟩

/-! ## REQUEST: helper lemmas -/

/-- The first loop of `handle_segment_request1` finds the lowest rank of a
range that satisfies the test, if one does. -/
theorem find_range' (p : Nat → Bool) (n : Nat) :
    ∀ s : Nat,
      match (List.range' s n).find? p with
      | some i => s ≤ i ∧ i < s + n ∧ p i = true ∧ ∀ k, s ≤ k → k < i → p k = false
      | none => ∀ k, s ≤ k → k < s + n → p k = false := by
  induction n with
  | zero => intro s; simp; intro k h1 h2; omega
  | succ n ih =>
    intro s
    rw [List.range'_succ]
    by_cases hp : p s = true
    · rw [List.find?_cons_of_pos _ hp]
      exact ⟨le_refl _, by omega, hp, fun k h1 h2 => by omega⟩
    · rw [List.find?_cons_of_neg _ hp]
      have h := ih (s + 1)
      cases hfind : (List.range' (s + 1) n).find? p with
      | some i =>
        rw [hfind] at h
        obtain ⟨a1, a2, a3, a4⟩ := h
        refine ⟨by omega, by omega, a3, ?_⟩
        intro k h1 h2
        by_cases hk : k = s
        · subst hk; simpa using hp
        · exact a4 k (by omega) h2
      | none =>
        rw [hfind] at h
        intro k h1 h2
        by_cases hk : k = s
        · subst hk; simpa using hp
        · exact h k (by omega) (by omega)

/-- The two nested loops of `handle_segment_request1` send the messages of
the entries of `request_triples`, in order. -/
theorem request_loops_eq (d : TrackerData) (r f : Nat) (l : List Nat) :
    (l.flatMap fun i =>
        if (d.swarms f i ≠ 0 ∨ d.seeds f i ≠ 0) ∧ i ≠ r then
          (List.range (d.all_files i f).n_segments.toNat).flatMap fun j =>
            if ((d.all_files i f).segments j).length > 0 then
              send_segment_request r j i ((d.all_files i f).segments j)
            else []
        else []) =
      (l.flatMap fun i =>
        if (d.swarms f i ≠ 0 ∨ d.seeds f i ≠ 0) ∧ i ≠ r then
          ((List.range (d.all_files i f).n_segments.toNat).filter
            (fun j => decide (((d.all_files i f).segments j).length > 0))).map
            (fun j => (j, i, (d.all_files i f).segments j))
        else []).flatMap (entry_messages r) := by
  induction l with
  | nil => rfl
  | cons i l ih =>
    rw [List.flatMap_cons, List.flatMap_cons, List.flatMap_append, ih]
    congr 1
    by_cases hc : (d.swarms f i ≠ 0 ∨ d.seeds f i ≠ 0) ∧ i ≠ r
    · rw [if_pos hc, if_pos hc]
      generalize List.range (d.all_files i f).n_segments.toNat = js
      induction js with
      | nil => rfl
      | cons j js ihj =>
        rw [List.flatMap_cons, ihj]
        by_cases hlen : ((d.all_files i f).segments j).length > 0
        · rw [if_pos hlen, List.filter_cons_of_pos (by simpa using hlen), List.map_cons,
            List.flatMap_cons]
          rfl
        · rw [if_neg hlen, List.filter_cons_of_neg (by simpa using hlen)]
          rfl
    · rw [if_neg hc, if_neg hc]
      rfl

/-- Shape of the reply to a REQUEST with an in-range file id. -/
theorem request_reply_shape (d : TrackerData) (r f : Nat) (hf : f ≤ MAX_FILES) :
    handle_segment_request1 d r (f : Int) =
      (match (peer_ranks d.number_of_tasks).find? (fun i => d.swarms f i ≠ 0) with
        | some i => [(⟨r, 0, .int (d.all_files i f).n_segments⟩ : Sent)]
        | none => []) ++
      (request_triples d r f).flatMap (entry_messages r) ++ [end_marker r] := by
  have hrange : ¬ ((f : Int) < 0 ∨ (f : Int) > (MAX_FILES : Int)) := by
    have : (f : Int) ≤ (MAX_FILES : Int) := by exact_mod_cast hf
    omega
  unfold handle_segment_request1
  rw [if_neg hrange]
  simp only [Int.toNat_ofNat]
  rw [request_loops_eq]
  rfl

/-- Membership in `request_triples`. -/
theorem mem_request_triples (d : TrackerData) (r f j i : Nat) (h : Hash) :
    (j, i, h) ∈ request_triples d r f ↔
      (1 ≤ i ∧ i < d.number_of_tasks ∧ (d.swarms f i ≠ 0 ∨ d.seeds f i ≠ 0) ∧ i ≠ r ∧
        (j : Int) < (d.all_files i f).n_segments ∧ (d.all_files i f).segments j ≠ [] ∧
        h = (d.all_files i f).segments j) := by
  unfold request_triples
  rw [List.mem_flatMap]
  constructor
  · rintro ⟨i2, hi2, hmem⟩
    by_cases hc : (d.swarms f i2 ≠ 0 ∨ d.seeds f i2 ≠ 0) ∧ i2 ≠ r
    · rw [if_pos hc, List.mem_map] at hmem
      obtain ⟨j2, hj2, heq⟩ := hmem
      rw [List.mem_filter, List.mem_range] at hj2
      simp only [Prod.mk.injEq] at heq
      obtain ⟨rfl, rfl, rfl⟩ := heq
      have hlen : ((d.all_files i2 f).segments j2).length > 0 := by simpa using hj2.2
      refine ⟨((mem_peer_ranks _ _).mp hi2).1, ((mem_peer_ranks _ _).mp hi2).2, hc.1, hc.2,
        by omega, ?_, rfl⟩
      intro hnil
      rw [hnil] at hlen
      simp at hlen
    · rw [if_neg hc] at hmem
      simp at hmem
  · rintro ⟨h1, h2, h3, h4, h5, h6, rfl⟩
    refine ⟨i, (mem_peer_ranks _ _).mpr ⟨h1, h2⟩, ?_⟩
    rw [if_pos ⟨h3, h4⟩, List.mem_map]
    refine ⟨j, ?_, rfl⟩
    rw [List.mem_filter, List.mem_range]
    refine ⟨by omega, ?_⟩
    simpa using List.length_pos.mpr h6

/-- No pair (holder, index) occurs twice in `request_triples`. -/
theorem request_triples_nodup (d : TrackerData) (r f : Nat) :
    (request_triples d r f).Nodup := by
  unfold request_triples peer_ranks
  rw [List.nodup_flatMap]
  constructor
  · intro i _
    by_cases hc : (d.swarms f i ≠ 0 ∨ d.seeds f i ≠ 0) ∧ i ≠ r
    · rw [if_pos hc]
      refine List.Nodup.map ?_ (List.Nodup.filter _ (List.nodup_range _))
      intro a b hab
      simp only [Prod.mk.injEq] at hab
      exact hab.1
    · rw [if_neg hc]
      exact List.nodup_nil
  · refine List.Pairwise.imp ?_ (List.nodup_range' 1 (d.number_of_tasks - 1))
    intro a b hab
    intro t hta htb
    dsimp only at hta htb
    by_cases hca : (d.swarms f a ≠ 0 ∨ d.seeds f a ≠ 0) ∧ a ≠ r
    · by_cases hcb : (d.swarms f b ≠ 0 ∨ d.seeds f b ≠ 0) ∧ b ≠ r
      · rw [if_pos hca, List.mem_map] at hta
        rw [if_pos hcb, List.mem_map] at htb
        obtain ⟨_, _, rfl⟩ := hta
        obtain ⟨_, _, heq⟩ := htb
        simp only [Prod.mk.injEq] at heq
        exact hab heq.2.1.symm
      · rw [if_neg hcb] at htb
        simp at htb
    · rw [if_neg hca] at hta
      simp at hta

/-! ## C6: the SEGMENT entries of a REQUEST reply -/

/-- Claim C6, as stated, fails: after peer 1 registered file 1 with two
segments and sent an UPDATE for slot 5 of file 1, peer 1 is in `swarm[1]`, is
not the requester 2, and holds a non-empty hash at index 5 of file 1, yet the
reply to REQUEST(1) from peer 2 has the entries of indices 0 and 1 only: no
entry is sent for the pair (peer 1, index 5). -/
theorem request_skips_slot_beyond_count :
    stale_slot.swarms 1 1 ≠ 0 ∧
    (stale_slot.all_files 1 1).segments 5 = hashB ∧
    (stale_slot.all_files 1 1).segments 5 ≠ [] ∧
    (stale_slot.all_files 1 1).n_segments = 2 ∧
    handle_segment_request1 stale_slot 2 1 =
      [⟨2, 0, .int 2⟩] ++ send_segment_request 2 0 1 hashA ++
        send_segment_request 2 1 1 hashA ++ [end_marker 2] ∧
    (⟨2, 0, .chars hashB⟩ : Sent) ∉ handle_segment_request1 stale_slot 2 1 := by
  refine ⟨by decide, by decide, by decide, by decide, by decide, by decide⟩

/-- Claim C6, amended: for an in-range file id `f` and requester `r`, the
reply of `handle_segment_request1` is an optional segment-count message, then
the messages of the SEGMENT entries, then the end marker, which is its last
message; the entries are exactly the triples (j, i, hash of peer i at index j
of f), one per pair (i, j) with `i` a peer in `swarm[f]` or `seeds[f]`, `i`
different from `r`, `j` below the segment count stored in the record of `i`,
and the hash of `i` at `j` non-empty. -/
theorem request_entries_exact (d : TrackerData) (r f : Nat) (hf : f ≤ MAX_FILES) :
    (∃ pre : List Sent,
      (pre = [] ∨ ∃ i, pre = [⟨r, 0, .int (d.all_files i f).n_segments⟩]) ∧
      handle_segment_request1 d r (f : Int) =
        pre ++ (request_triples d r f).flatMap (entry_messages r) ++ [end_marker r]) ∧
    (∀ (j i : Nat) (h : Hash), (j, i, h) ∈ request_triples d r f ↔
      (1 ≤ i ∧ i < d.number_of_tasks ∧ (d.swarms f i ≠ 0 ∨ d.seeds f i ≠ 0) ∧ i ≠ r ∧
        (j : Int) < (d.all_files i f).n_segments ∧ (d.all_files i f).segments j ≠ [] ∧
        h = (d.all_files i f).segments j)) ∧
    (request_triples d r f).Nodup ∧
    (handle_segment_request1 d r (f : Int)).getLast? = some (end_marker r) := by
  have hshape := request_reply_shape d r f hf
  refine ⟨?_, fun j i h => mem_request_triples d r f j i h, request_triples_nodup d r f, ?_⟩
  · cases hfind : (peer_ranks d.number_of_tasks).find? (fun i => d.swarms f i ≠ 0) with
    | some i =>
      rw [hfind] at hshape
      exact ⟨_, Or.inr ⟨i, rfl⟩, hshape⟩
    | none =>
      rw [hfind] at hshape
      exact ⟨_, Or.inl rfl, hshape⟩
  · rw [hshape, List.getLast?_concat]

theorem request_entries_exact_witness :
    (1 ≤ MAX_FILES) ∧
    (handle_segment_request1 one_owner 2 ((1 : Nat) : Int)).getLast? = some (end_marker 2) :=
  ⟨by decide, (request_entries_exact one_owner 2 1 (by decide)).2.2.2⟩

/-! ## C7: the segment-count message -/

/-- Claim C7, as stated, fails: after FINISH(1) from peer 1 on the empty
registry, peer 1 is a member of `seeds[1]` (and no peer is in `swarm[1]`), yet
the reply to REQUEST(1) from peer 2 is the end marker alone: it does not begin
with a segment-count message. -/
theorem request_no_count_for_seed_only :
    seed_only.seeds 1 1 ≠ 0 ∧
    (∀ i, seed_only.swarms 1 i = 0) ∧
    handle_segment_request1 seed_only 2 1 = [end_marker 2] ∧
    (handle_segment_request1 seed_only 2 1).head? ≠
      some ⟨2, 0, .int (seed_only.all_files 1 1).n_segments⟩ := by
  refine ⟨by decide, ?_, by decide, by decide⟩
  intro i
  have h := (tracker_finish_frame (init_tracker 3) 1 1).1
  have : seed_only.swarms = (init_tracker 3).swarms := h
  rw [this]
  rfl

/-- Claim C7, amended: for an in-range file id `f` for which at least one
peer is a member of `swarm[f]`, the reply of `handle_segment_request1` begins
with one segment-count message, carrying the segment count stored in the
record of the lowest-ranked member of `swarm[f]`; the SEGMENT entries and the
end marker follow it. -/
theorem request_count_first (d : TrackerData) (r f : Nat) (hf : f ≤ MAX_FILES)
    (hswarm : ∃ i, 1 ≤ i ∧ i < d.number_of_tasks ∧ d.swarms f i ≠ 0) :
    ∃ i0, 1 ≤ i0 ∧ i0 < d.number_of_tasks ∧ d.swarms f i0 ≠ 0 ∧
      (∀ k, 1 ≤ k → k < i0 → d.swarms f k = 0) ∧
      handle_segment_request1 d r (f : Int) =
        ⟨r, 0, .int (d.all_files i0 f).n_segments⟩ ::
          ((request_triples d r f).flatMap (entry_messages r) ++ [end_marker r]) := by
  have hshape := request_reply_shape d r f hf
  have hfr := find_range' (fun i => decide (d.swarms f i ≠ 0)) (d.number_of_tasks - 1) 1
  have hpr : peer_ranks d.number_of_tasks = List.range' 1 (d.number_of_tasks - 1) := rfl
  cases hfind : (List.range' 1 (d.number_of_tasks - 1)).find?
      (fun i => decide (d.swarms f i ≠ 0)) with
  | some i0 =>
    rw [hfind] at hfr
    rw [hpr, hfind] at hshape
    obtain ⟨a1, a2, a3, a4⟩ := hfr
    refine ⟨i0, a1, by omega, by simpa using a3, ?_, ?_⟩
    · intro k h1 h2
      simpa using a4 k h1 h2
    · rw [hshape]
      simp
  | none =>
    rw [hfind] at hfr
    obtain ⟨i, b1, b2, b3⟩ := hswarm
    have := hfr i b1 (by omega)
    simp at this
    exact absurd this b3

theorem request_count_first_witness :
    (∃ i, 1 ≤ i ∧ i < one_owner.number_of_tasks ∧ one_owner.swarms 1 i ≠ 0) ∧
    (∃ i0, 1 ≤ i0 ∧ i0 < one_owner.number_of_tasks ∧ one_owner.swarms 1 i0 ≠ 0 ∧
      (∀ k, 1 ≤ k → k < i0 → one_owner.swarms 1 k = 0) ∧
      handle_segment_request1 one_owner 2 ((1 : Nat) : Int) =
        ⟨2, 0, .int (one_owner.all_files i0 1).n_segments⟩ ::
          ((request_triples one_owner 2 1).flatMap (entry_messages 2) ++ [end_marker 2])) :=
  ⟨⟨1, by decide, by decide, by decide⟩,
   request_count_first one_owner 2 1 (by decide) ⟨1, by decide, by decide, by decide⟩⟩

/-! ## C8: REQUEST for a file nobody holds -/

/-- Claim C8: for an in-range file id `f` with no peer in `swarm[f]` and no
peer in `seeds[f]`, the reply of `handle_segment_request1` is the end marker
alone: no segment-count message and no SEGMENT entry. -/
theorem request_without_holder (d : TrackerData) (r f : Nat) (hf : f ≤ MAX_FILES)
    (hnone : ∀ i, 1 ≤ i → i < d.number_of_tasks → d.swarms f i = 0 ∧ d.seeds f i = 0) :
    handle_segment_request1 d r (f : Int) = [end_marker r] := by
  have hshape := request_reply_shape d r f hf
  have hfind : (peer_ranks d.number_of_tasks).find? (fun i => d.swarms f i ≠ 0) = none := by
    rw [List.find?_eq_none]
    intro i hi
    have := hnone i ((mem_peer_ranks _ _).mp hi).1 ((mem_peer_ranks _ _).mp hi).2
    simp [this.1]
  have htriples : request_triples d r f = [] := by
    unfold request_triples
    rw [List.flatMap_eq_nil_iff]
    intro i hi
    have := hnone i ((mem_peer_ranks _ _).mp hi).1 ((mem_peer_ranks _ _).mp hi).2
    simp [this.1, this.2]
  rw [hshape, hfind, htriples]
  rfl

theorem request_without_holder_witness :
    (∀ i, 1 ≤ i → i < (init_tracker 3).number_of_tasks →
      (init_tracker 3).swarms 1 i = 0 ∧ (init_tracker 3).seeds 1 i = 0) ∧
    handle_segment_request1 (init_tracker 3) 2 ((1 : Nat) : Int) = [end_marker 2] :=
  ⟨fun _ _ _ => ⟨rfl, rfl⟩,
   request_without_holder (init_tracker 3) 2 1 (by decide) (fun _ _ _ => ⟨rfl, rfl⟩)⟩

/-! ## UPDATE: helper lemmas -/

/-- A hash reported by `last_update` comes from a round of the stream that
names the slot. -/
theorem last_update_some (g k : Nat) (l : List UpdateMsg) :
    ∀ h, last_update g k l = some h →
      ∃ x ∈ l, x.file_id.toNat = g ∧ x.segment_id.toNat = k ∧ x.hash = h := by
  induction l with
  | nil => intro h hl; simp [last_update] at hl
  | cons m rest ih =>
    intro h hl
    unfold last_update at hl
    by_cases h1 : m.signal = MSG_END_OF_MESSAGE
    · rw [if_pos h1] at hl; exact absurd hl (by simp)
    · rw [if_neg h1] at hl
      by_cases h2 : m.signal = MSG_SEGMENT
      · rw [if_pos h2] at hl
        by_cases h3 : m.file_id < 0 ∨ m.file_id > (MAX_FILES : Int) ∨
            m.segment_id < 0 ∨ m.segment_id ≥ (MAX_CHUNKS : Int)
        · rw [if_pos h3] at hl
          obtain ⟨x, hx, hx2⟩ := ih h hl
          exact ⟨x, List.mem_cons_of_mem _ hx, hx2⟩
        · rw [if_neg h3] at hl
          cases hrest : last_update g k rest with
          | some h' =>
            rw [hrest] at hl
            obtain ⟨x, hx, hx2⟩ := ih h' hrest
            simp only [Option.some.injEq] at hl
            subst hl
            exact ⟨x, List.mem_cons_of_mem _ hx, hx2⟩
          | none =>
            rw [hrest] at hl
            by_cases hm : m.file_id.toNat = g ∧ m.segment_id.toNat = k
            · rw [if_pos hm] at hl
              simp only [Option.some.injEq] at hl
              exact ⟨m, List.mem_cons_self _ _, hm.1, hm.2, hl⟩
            · rw [if_neg hm] at hl; exact absurd hl (by simp)
      · rw [if_neg h2] at hl
        obtain ⟨x, hx, hx2⟩ := ih h hl
        exact ⟨x, List.mem_cons_of_mem _ hx, hx2⟩

/-- In a stream of in-range rounds, the last round that names a slot decides
`last_update`. -/
theorem last_update_last (pre post : List UpdateMsg) (m : UpdateMsg)
    (hin : ∀ x ∈ pre ++ m :: post, in_range_update x)
    (hpost : ∀ x ∈ post, ¬ (x.file_id = m.file_id ∧ x.segment_id = m.segment_id)) :
    last_update m.file_id.toNat m.segment_id.toNat (pre ++ m :: post) = some m.hash := by
  have hm := hin m (by simp)
  have hpost_none : last_update m.file_id.toNat m.segment_id.toNat post = none := by
    cases hl : last_update m.file_id.toNat m.segment_id.toNat post with
    | none => rfl
    | some h =>
      obtain ⟨x, hx, hx1, hx2, -⟩ := last_update_some _ _ post h hl
      have hxin := hin x (by simp [hx])
      obtain ⟨-, a1, -, a3, -⟩ := hxin
      obtain ⟨-, b1, -, b3, -⟩ := hm
      exact absurd ⟨by omega, by omega⟩ (hpost x hx)
  have hne : ¬ (MSG_SEGMENT = MSG_END_OF_MESSAGE) := segment_ne_end
  induction pre with
  | nil =>
    have h3 : ¬ (m.file_id < 0 ∨ m.file_id > (MAX_FILES : Int) ∨
        m.segment_id < 0 ∨ m.segment_id ≥ (MAX_CHUNKS : Int)) := by
      obtain ⟨-, b1, b2, b3, b4⟩ := hm
      omega
    simp only [List.nil_append]
    unfold last_update
    rw [hm.1, if_neg hne, if_pos rfl, if_neg h3, hpost_none]
    simp
  | cons x pre ih =>
    have hx := hin x (by simp)
    have h3 : ¬ (x.file_id < 0 ∨ x.file_id > (MAX_FILES : Int) ∨
        x.segment_id < 0 ∨ x.segment_id ≥ (MAX_CHUNKS : Int)) := by
      obtain ⟨-, b1, b2, b3, b4⟩ := hx
      omega
    have ih2 := ih (fun y hy => hin y (by
      rw [List.cons_append]; exact List.mem_cons_of_mem _ hy))
    rw [List.cons_append]
    unfold last_update
    rw [hx.1, if_neg hne, if_pos rfl, if_neg h3, ih2]

/-- A file reported by `updates_file` is named by a round of the stream. -/
theorem updates_file_true (g : Nat) (l : List UpdateMsg) :
    updates_file g l = true → ∃ x ∈ l, x.file_id.toNat = g := by
  induction l with
  | nil => intro h; simp [updates_file] at h
  | cons m rest ih =>
    intro h
    unfold updates_file at h
    by_cases h1 : m.signal = MSG_END_OF_MESSAGE
    · rw [if_pos h1] at h; exact absurd h (by simp)
    · rw [if_neg h1] at h
      by_cases h2 : m.signal = MSG_SEGMENT
      · rw [if_pos h2] at h
        by_cases h3 : m.file_id < 0 ∨ m.file_id > (MAX_FILES : Int) ∨
            m.segment_id < 0 ∨ m.segment_id ≥ (MAX_CHUNKS : Int)
        · rw [if_pos h3] at h
          obtain ⟨x, hx, hx2⟩ := ih h
          exact ⟨x, List.mem_cons_of_mem _ hx, hx2⟩
        · rw [if_neg h3] at h
          rw [Bool.or_eq_true, decide_eq_true_eq] at h
          rcases h with h | h
          · exact ⟨m, List.mem_cons_self _ _, h⟩
          · obtain ⟨x, hx, hx2⟩ := ih h
            exact ⟨x, List.mem_cons_of_mem _ hx, hx2⟩
      · rw [if_neg h2] at h
        obtain ⟨x, hx, hx2⟩ := ih h
        exact ⟨x, List.mem_cons_of_mem _ hx, hx2⟩

/-- In a stream of in-range rounds every named file is reported by
`updates_file`. -/
theorem updates_file_of_mem (l : List UpdateMsg) (hin : ∀ x ∈ l, in_range_update x) :
    ∀ m ∈ l, updates_file m.file_id.toNat l = true := by
  induction l with
  | nil => intro m hm; simp at hm
  | cons x rest ih =>
    intro m hm
    have hx := hin x (List.mem_cons_self _ _)
    have h3 : ¬ (x.file_id < 0 ∨ x.file_id > (MAX_FILES : Int) ∨
        x.segment_id < 0 ∨ x.segment_id ≥ (MAX_CHUNKS : Int)) := by
      obtain ⟨-, b1, b2, b3, b4⟩ := hx
      omega
    unfold updates_file
    rw [hx.1, if_neg segment_ne_end, if_pos rfl, if_neg h3, Bool.or_eq_true, decide_eq_true_eq]
    rcases List.mem_cons.mp hm with rfl | hm
    · exact Or.inl rfl
    · exact Or.inr (ih (fun y hy => hin y (List.mem_cons_of_mem _ hy)) m hm)

/-! ## C9: effect and frame of UPDATE -/

/-- Claim C9: for every registry, sender `s` and UPDATE stream of in-range
rounds (segment index, file id, hash), after `handle_update` the record of
`s` holds each streamed hash at its index, the last one streamed for a slot
winning; `s` is in `swarm[fileId]` for every file named in the stream; and
nothing else changed: the seeds table, the counters, the swarm membership of
other peers and of `s` for files not named, the records of other peers, and
in the records of `s` the segment count, file number and every slot not
named in the stream are as before. -/
theorem update_effect_and_frame (d : TrackerData) (s : Nat) (stream : List UpdateMsg)
    (hin : ∀ m ∈ stream, in_range_update m) :
    (∀ pre m post, stream = pre ++ m :: post →
      (∀ x ∈ post, ¬ (x.file_id = m.file_id ∧ x.segment_id = m.segment_id)) →
      ((handle_update s d stream).all_files s m.file_id.toNat).segments m.segment_id.toNat =
        m.hash) ∧
    (∀ m ∈ stream, (handle_update s d stream).swarms m.file_id.toNat s = 1) ∧
    (handle_update s d stream).seeds = d.seeds ∧
    (handle_update s d stream).number_of_tasks = d.number_of_tasks ∧
    (handle_update s d stream).n_clients = d.n_clients ∧
    (∀ g q, q ≠ s → (handle_update s d stream).swarms g q = d.swarms g q) ∧
    (∀ g, (∀ m ∈ stream, m.file_id.toNat ≠ g) →
      (handle_update s d stream).swarms g s = d.swarms g s) ∧
    (∀ q, q ≠ s → (handle_update s d stream).all_files q = d.all_files q) ∧
    (∀ g, ((handle_update s d stream).all_files s g).n_segments = (d.all_files s g).n_segments ∧
      ((handle_update s d stream).all_files s g).file_number = (d.all_files s g).file_number ∧
      ((handle_update s d stream).all_files s g).usage_count =
        (d.all_files s g).usage_count) ∧
    (∀ g k, (∀ m ∈ stream, ¬ (m.file_id.toNat = g ∧ m.segment_id.toNat = k)) →
      ((handle_update s d stream).all_files s g).segments k = (d.all_files s g).segments k) := by
  obtain ⟨f1, f2, f3, f4⟩ := handle_update_frame s stream d
  refine ⟨?_, ?_, f1, f2, f3, ?_, ?_, ?_, fun g => f4 s g, ?_⟩
  · intro pre m post hsplit hpost
    rw [handle_update_segments]
    subst hsplit
    rw [if_pos rfl, last_update_last pre post m hin hpost]
    rfl
  · intro m hm
    rw [handle_update_swarms, if_pos ⟨rfl, updates_file_of_mem stream hin m hm⟩]
  · intro g q hq
    rw [handle_update_swarms]
    have : ¬ (q = s ∧ updates_file g stream = true) := fun h => hq h.1
    rw [if_neg this]
  · intro g hg
    rw [handle_update_swarms]
    have : ¬ (s = s ∧ updates_file g stream = true) := by
      rintro ⟨-, h⟩
      obtain ⟨x, hx, hx2⟩ := updates_file_true g stream h
      exact hg x hx hx2
    rw [if_neg this]
  · intro q hq
    funext g
    apply file_info.ext
    · exact (f4 q g).2.1
    · exact (f4 q g).1
    · funext k
      rw [handle_update_segments, if_neg hq]
    · exact (f4 q g).2.2
  · intro g k hnone
    rw [handle_update_segments, if_pos rfl]
    cases hl : last_update g k stream with
    | none => rfl
    | some h =>
      obtain ⟨x, hx, hx1, hx2, -⟩ := last_update_some g k stream h hl
      exact absurd ⟨hx1, hx2⟩ (hnone x hx)

theorem update_effect_and_frame_witness :
    (∀ m ∈ sample_updates, in_range_update m) ∧
    ((handle_update 2 one_owner sample_updates).all_files 2 (1 : Int).toNat).segments
      (0 : Int).toNat = hashB :=
  ⟨by decide,
   (update_effect_and_frame one_owner 2 sample_updates (by decide)).1
     [⟨MSG_SEGMENT, 0, 1, hashA⟩, ⟨MSG_SEGMENT, 1, 1, hashA⟩] ⟨MSG_SEGMENT, 0, 1, hashB⟩ []
     rfl (by intro x hx; simp at hx)⟩

/-! ## C10: UPDATE is idempotent -/

/-- Claim C10: for every registry, sender and UPDATE stream, applying
`handle_update` with the stream again to the registry it produced yields the
same registry, and so does applying it any number of times more. -/
theorem update_idempotent (d : TrackerData) (s : Nat) (stream : List UpdateMsg) :
    handle_update s (handle_update s d stream) stream = handle_update s d stream ∧
    ∀ n : Nat, (fun x => handle_update s x stream)^[n + 1] d = handle_update s d stream := by
  have hidem : ∀ x : TrackerData,
      handle_update s (handle_update s x stream) stream = handle_update s x stream := by
    intro x
    obtain ⟨f1, f2, f3, f4⟩ := handle_update_frame s stream (handle_update s x stream)
    apply TrackerData.ext
    · funext q g
      apply file_info.ext
      · exact (f4 q g).2.1
      · exact (f4 q g).1
      · funext k
        rw [handle_update_segments s stream (handle_update s x stream),
          handle_update_segments s stream x]
        by_cases hq : q = s
        · simp only [hq, if_true]
          cases last_update g k stream <;> rfl
        · simp only [hq, if_false]
      · exact (f4 q g).2.2
    · funext g q
      rw [handle_update_swarms s stream (handle_update s x stream),
        handle_update_swarms s stream x]
      by_cases hc : q = s ∧ updates_file g stream = true
      · simp only [hc, and_self, if_true]
      · simp only [hc, if_false]
    · exact f1
    · exact f2
    · exact f3
  refine ⟨hidem d, ?_⟩
  intro n
  induction n with
  | zero => rfl
  | succ n ih =>
    rw [Function.iterate_succ_apply', ih]
    exact hidem d

/-! ## C11: a registration that fails -/

/-- Return value of the hash loop of `receive_file_info`: -1 exactly when one
of the buffers it receives has a length other than `HASH_SIZE`. -/
theorem receive_segments_loop_result (f sender : Nat) (hashes : Nat → Hash) (m : Nat) :
    ∀ (k : Nat) (d : TrackerData),
      ((receive_segments_loop f sender hashes m k d).2 = 0 ∨
        (receive_segments_loop f sender hashes m k d).2 = -1) ∧
      ((receive_segments_loop f sender hashes m k d).2 = -1 ↔
        ∃ j, k ≤ j ∧ j < k + m ∧ (hashes j).length ≠ HASH_SIZE) := by
  induction m with
  | zero =>
    intro k d
    simp only [receive_segments_loop]
    refine ⟨by simp, ?_⟩
    constructor
    · intro h; exact absurd h (by decide)
    · rintro ⟨j, h1, h2, -⟩; omega
  | succ m ih =>
    intro k d
    simp only [receive_segments_loop, receive_segment_info]
    by_cases hlen : (hashes k).length = HASH_SIZE
    · simp only [hlen, ne_eq, not_true_eq_false, if_false, Int.lt_irrefl]
      obtain ⟨h1, h2⟩ := ih (k + 1) (set_segment d sender f k (hashes k))
      refine ⟨h1, ?_⟩
      rw [h2]
      constructor
      · rintro ⟨j, a1, a2, a3⟩
        exact ⟨j, by omega, by omega, a3⟩
      · rintro ⟨j, a1, a2, a3⟩
        have hjk : j ≠ k := by
          intro hjk; subst hjk; exact a3 hlen
        exact ⟨j, by omega, by omega, a3⟩
    · simp only [hlen, ne_eq, not_false_eq_true, if_true]
      have hneg : ((-1 : Int) < 0) := by decide
      simp only [hneg, if_true]
      exact ⟨by simp, fun _ => ⟨k, le_refl _, by omega, hlen⟩, fun _ => by simp⟩

/-- A registration with in-range file id and segment count leaves alone every
record of another file and, in the records of its file, everything but the
segment counts and the file number and hash slots of the sender. -/
theorem receive_file_info_records (d : TrackerData) (sender : Nat) (file_id n : Int)
    (hashes : Nat → Hash) (h0 : 0 ≤ file_id) (h1 : file_id ≤ (MAX_FILES : Int))
    (h2 : 0 < n) (h3 : n ≤ (MAX_CHUNKS : Int)) :
    ∀ q g, (((receive_file_info d sender file_id n hashes).1.all_files q g).usage_count =
        (d.all_files q g).usage_count) ∧
      (¬ (q = sender ∧ g = file_id.toNat) →
        ((receive_file_info d sender file_id n hashes).1.all_files q g).file_number =
          (d.all_files q g).file_number ∧
        ((receive_file_info d sender file_id n hashes).1.all_files q g).segments =
          (d.all_files q g).segments) := by
  have hv : ¬ (file_id < 0 ∨ file_id > (MAX_FILES : Int)) := by omega
  have hn : ¬ (n ≤ 0 ∨ n > (MAX_CHUNKS : Int)) := by omega
  intro q g
  simp only [receive_file_info, validate_file_id, hv, if_false, hn]
  simp only [one_ne_zero, if_false]
  obtain ⟨-, -, -, -, a5⟩ := receive_segments_loop_frame file_id.toNat sender hashes
    n.toNat 0 ((peer_ranks (set_n_segments (set_file_number (set_seed
      (set_swarm d file_id.toNat sender 1) file_id.toNat sender 1) sender file_id.toNat
      file_id) sender file_id.toNat n).number_of_tasks).foldl
      (fun d k => set_n_segments d k file_id.toNat n) (set_n_segments (set_file_number
      (set_seed (set_swarm d file_id.toNat sender 1) file_id.toNat sender 1) sender
      file_id.toNat file_id) sender file_id.toNat n))
  obtain ⟨-, -, -, -, b5⟩ := fold_set_n_segments file_id.toNat n
    (peer_ranks (set_n_segments (set_file_number (set_seed
      (set_swarm d file_id.toNat sender 1) file_id.toNat sender 1) sender file_id.toNat
      file_id) sender file_id.toNat n).number_of_tasks)
    (set_n_segments (set_file_number
      (set_seed (set_swarm d file_id.toNat sender 1) file_id.toNat sender 1) sender
      file_id.toNat file_id) sender file_id.toNat n)
  obtain ⟨-, a2, a3, a4⟩ := a5 q g
  obtain ⟨-, b2, b3, b4⟩ := b5 q g
  refine ⟨?_, ?_⟩
  · rw [a3, b3]; simp
  · intro hne
    refine ⟨?_, ?_⟩
    · rw [a2, b2]; simp [hne]
    · rw [a4 hne, b4]; simp

/-- Claim C11, as stated, fails: on the empty registry of three tasks, the
registration of file 1 by peer 1 with segment count 0 fails (returns -1) and
still leaves peer 1 in `swarm[1]` and `seeds[1]`; the registration of file 1
by peer 1 with count 2 and a hash of one character fails and still leaves
the count 2 in the record of peer 2 and the short hash in slot 0 of the
record of peer 1. -/
theorem failed_registration_leaves_traces :
    (receive_file_info (init_tracker 3) 1 1 0 (fun _ => hashA)).2 = -1 ∧
    (receive_file_info (init_tracker 3) 1 1 0 (fun _ => hashA)).1.swarms 1 1 = 1 ∧
    (receive_file_info (init_tracker 3) 1 1 0 (fun _ => hashA)).1.seeds 1 1 = 1 ∧
    (init_tracker 3).swarms 1 1 = 0 ∧ (init_tracker 3).seeds 1 1 = 0 ∧
    (receive_file_info (init_tracker 3) 1 1 2 (fun _ => ['x'])).2 = -1 ∧
    ((receive_file_info (init_tracker 3) 1 1 2 (fun _ => ['x'])).1.all_files 2 1).n_segments
      = 2 ∧
    ((receive_file_info (init_tracker 3) 1 1 2 (fun _ => ['x'])).1.all_files 1 1).segments 0
      = ['x'] ∧
    ((init_tracker 3).all_files 2 1).n_segments = 0 ∧
    ((init_tracker 3).all_files 1 1).segments 0 = [] := by
  refine ⟨by decide, by decide, by decide, rfl, rfl, by decide, by decide, by decide, rfl, rfl⟩

/-- Return value of `receive_file_info`: it fails exactly on a file id out of
range, a segment count out of range, or a received hash whose length is not
`HASH_SIZE`. -/
theorem receive_file_info_fails_iff (d : TrackerData) (sender : Nat) (file_id n : Int)
    (hashes : Nat → Hash) :
    (receive_file_info d sender file_id n hashes).2 ≠ 0 ↔
      ((file_id < 0 ∨ file_id > (MAX_FILES : Int)) ∨ (n ≤ 0 ∨ n > (MAX_CHUNKS : Int)) ∨
        ∃ k : Nat, (k : Int) < n ∧ (hashes k).length ≠ HASH_SIZE) := by
  by_cases hf : file_id < 0 ∨ file_id > (MAX_FILES : Int)
  · simp [receive_file_info, validate_file_id, hf]
  · by_cases hn : n ≤ 0 ∨ n > (MAX_CHUNKS : Int)
    · simp [receive_file_info, validate_file_id, hf, hn]
    · simp only [receive_file_info, validate_file_id, hf, if_false, hn]
      simp only [one_ne_zero, if_false, false_or]
      have hres := fun d0 => receive_segments_loop_result file_id.toNat sender hashes
        n.toNat 0 d0
      constructor
      · intro h
        rcases (hres _).1 with h0 | h1
        · exact absurd h0 h
        · obtain ⟨j, -, a2, a3⟩ := ((hres _).2).mp h1
          exact ⟨j, by omega, a3⟩
      · rintro ⟨k, a1, a2⟩
        have := ((hres ((peer_ranks (set_n_segments (set_file_number (set_seed
          (set_swarm d file_id.toNat sender 1) file_id.toNat sender 1) sender file_id.toNat
          file_id) sender file_id.toNat n).number_of_tasks).foldl
          (fun d k => set_n_segments d k file_id.toNat n) (set_n_segments (set_file_number
          (set_seed (set_swarm d file_id.toNat sender 1) file_id.toNat sender 1) sender
          file_id.toNat file_id) sender file_id.toNat n))).2).mpr
          ⟨k, Nat.zero_le _, by omega, a2⟩
        rw [this]
        decide

/-- Claim C11, amended: `receive_file_info` fails exactly on a file id out of
range, a segment count out of range or a hash whose length is not 32. When
the file id is out of range the registry afterwards equals the registry
before. When the segment count is out of range no segment count or hash is
stored (every file record is as before) and the registry differs from the
one before at most in the marks `swarm[f][sender]` and `seeds[f][sender]`.
When a hash has the wrong length the registry differs from the one before at
most in those two marks, in the segment counts of the records of `f`, and in
the file number and hash slots of the record of the sender for `f`. -/
theorem failed_registration_effect (d : TrackerData) (sender : Nat) (file_id n : Int)
    (hashes : Nat → Hash) :
    ((receive_file_info d sender file_id n hashes).2 ≠ 0 ↔
      ((file_id < 0 ∨ file_id > (MAX_FILES : Int)) ∨ (n ≤ 0 ∨ n > (MAX_CHUNKS : Int)) ∨
        ∃ k : Nat, (k : Int) < n ∧ (hashes k).length ≠ HASH_SIZE)) ∧
    (file_id < 0 ∨ file_id > (MAX_FILES : Int) →
      (receive_file_info d sender file_id n hashes).1 = d) ∧
    (0 ≤ file_id → file_id ≤ (MAX_FILES : Int) → (n ≤ 0 ∨ n > (MAX_CHUNKS : Int)) →
      (receive_file_info d sender file_id n hashes).1.all_files = d.all_files ∧
      (receive_file_info d sender file_id n hashes).1.number_of_tasks = d.number_of_tasks ∧
      (receive_file_info d sender file_id n hashes).1.n_clients = d.n_clients ∧
      ∀ g q, ¬ (g = file_id.toNat ∧ q = sender) →
        (receive_file_info d sender file_id n hashes).1.swarms g q = d.swarms g q ∧
        (receive_file_info d sender file_id n hashes).1.seeds g q = d.seeds g q) ∧
    (0 ≤ file_id → file_id ≤ (MAX_FILES : Int) → 0 < n → n ≤ (MAX_CHUNKS : Int) →
      (∃ k : Nat, (k : Int) < n ∧ (hashes k).length ≠ HASH_SIZE) →
      (receive_file_info d sender file_id n hashes).1.number_of_tasks = d.number_of_tasks ∧
      (receive_file_info d sender file_id n hashes).1.n_clients = d.n_clients ∧
      (∀ g q, ¬ (g = file_id.toNat ∧ q = sender) →
        (receive_file_info d sender file_id n hashes).1.swarms g q = d.swarms g q ∧
        (receive_file_info d sender file_id n hashes).1.seeds g q = d.seeds g q) ∧
      (∀ q g, g ≠ file_id.toNat →
        (receive_file_info d sender file_id n hashes).1.all_files q g = d.all_files q g) ∧
      (∀ q g, ((receive_file_info d sender file_id n hashes).1.all_files q g).usage_count =
        (d.all_files q g).usage_count) ∧
      (∀ q, q ≠ sender →
        ((receive_file_info d sender file_id n hashes).1.all_files q
            file_id.toNat).file_number = (d.all_files q file_id.toNat).file_number ∧
        ((receive_file_info d sender file_id n hashes).1.all_files q
            file_id.toNat).segments = (d.all_files q file_id.toNat).segments)) := by
  refine ⟨receive_file_info_fails_iff d sender file_id n hashes,
    receive_file_info_bad_file d sender file_id n hashes, ?_, ?_⟩
  · intro h0 h1 hn
    obtain ⟨e1, e2, e3, e4, e5, -⟩ := receive_file_info_effect d sender file_id n hashes h0 h1
    refine ⟨e5 hn, e1, e2, ?_⟩
    intro g q hne
    rw [e3 g q, e4 g q, if_neg hne, if_neg hne]
    exact ⟨rfl, rfl⟩
  · intro h0 h1 h2 h3 _
    obtain ⟨e1, e2, e3, e4, -, e6⟩ := receive_file_info_effect d sender file_id n hashes h0 h1
    have hrec := receive_file_info_records d sender file_id n hashes h0 h1 h2 h3
    refine ⟨e1, e2, ?_, ?_, fun q g => (hrec q g).1, ?_⟩
    · intro g q hne
      rw [e3 g q, e4 g q, if_neg hne, if_neg hne]
      exact ⟨rfl, rfl⟩
    · intro q g hg
      have hne : ¬ (q = sender ∧ g = file_id.toNat) := fun h => hg h.2
      obtain ⟨u, v⟩ := hrec q g
      obtain ⟨v1, v2⟩ := v hne
      apply file_info.ext
      · exact v1
      · rw [e6 h2 h3 q g]
        have : ¬ ((q = sender ∨ (1 ≤ q ∧ q < d.number_of_tasks)) ∧ g = file_id.toNat) :=
          fun h => hg h.2
        rw [if_neg this]
      · exact v2
      · exact u
    · intro q hq
      have hne : ¬ (q = sender ∧ file_id.toNat = file_id.toNat) := fun h => hq h.1
      exact (hrec q file_id.toNat).2 hne

theorem failed_registration_effect_witness :
    ((-1 : Int) < 0 ∨ (-1 : Int) > (MAX_FILES : Int)) ∧
    (receive_file_info one_owner 2 (-1) 2 (fun _ => hashA)).1 = one_owner :=
  ⟨by decide,
   (failed_registration_effect one_owner 2 (-1) 2 (fun _ => hashA)).2.1 (by decide)⟩

/-! ## C12: FINISH at the end of a pass -/

/-- Claim C12 on the code: peer 2 of three tasks, owning nothing, wishes file
1; the tracker answers the REQUEST with segment count 1 and no SEGMENT entry.
The pass finds no source for segment 0, leaves slot 0 of the local record
empty, and still sends FINISH(1) to the tracker. -/
theorem finish_sent_with_missing_segment :
    (download_file 3 2 empty_store 1 ⟨1, [], [⟨0, [], fun _ => -1⟩]⟩).map (fun r => r.2) =
      some [⟨0, 1, .int MSG_REQUEST⟩, ⟨0, 0, .int 1⟩,
            ⟨0, 1, .int MSG_FINISH⟩, ⟨0, 0, .int 1⟩] ∧
    (download_file 3 2 empty_store 1 ⟨1, [], [⟨0, [], fun _ => -1⟩]⟩).map
      (fun r => (r.1 1).n_segments) = some 1 ∧
    (download_file 3 2 empty_store 1 ⟨1, [], [⟨0, [], fun _ => -1⟩]⟩).map
      (fun r => (r.1 1).segments 0) = some [] := by
  refine ⟨by decide, by decide, by decide⟩

/-! ## The retry loop as a function of its replies -/

/-- Behaviour of `download_segment_from_peer` as a function of the replies
delivered to it: if none of the three replies is ACK it returns 0 after 3
receives, having sent the commands `MSG_REQUEST`, `replies 0`, `replies 1`,
each followed by the requested hash; if the `k`-th reply, `k` at most 3, is
the first ACK, it returns 1 after `k` receives. -/
theorem fetch_attempts (peer_rank : Nat) (segment_hash : Hash) (replies : Nat → Int) :
    ((∀ i, i < 3 → replies i ≠ MSG_ACK) →
      (download_segment_from_peer peer_rank segment_hash replies).result = 0 ∧
      (download_segment_from_peer peer_rank segment_hash replies).receives = 3 ∧
      (download_segment_from_peer peer_rank segment_hash replies).sent =
        [⟨peer_rank, 1, .int MSG_REQUEST⟩, ⟨peer_rank, 1, .chars segment_hash⟩,
         ⟨peer_rank, 1, .int (replies 0)⟩, ⟨peer_rank, 1, .chars segment_hash⟩,
         ⟨peer_rank, 1, .int (replies 1)⟩, ⟨peer_rank, 1, .chars segment_hash⟩]) ∧
    (∀ k, 1 ≤ k → k ≤ 3 → (∀ i, i + 1 < k → replies i ≠ MSG_ACK) →
      replies (k - 1) = MSG_ACK →
      (download_segment_from_peer peer_rank segment_hash replies).result = 1 ∧
      (download_segment_from_peer peer_rank segment_hash replies).receives = k ∧
      (download_segment_from_peer peer_rank segment_hash replies).sent.length = 2 * k ∧
      (download_segment_from_peer peer_rank segment_hash replies).sent =
        ([⟨peer_rank, 1, .int MSG_REQUEST⟩, ⟨peer_rank, 1, .chars segment_hash⟩,
          ⟨peer_rank, 1, .int (replies 0)⟩, ⟨peer_rank, 1, .chars segment_hash⟩,
          ⟨peer_rank, 1, .int (replies 1)⟩, ⟨peer_rank, 1, .chars segment_hash⟩] :
            List Sent).take (2 * k)) := by
  constructor
  · intro h
    have h0 := h 0 (by decide)
    have h1 := h 1 (by decide)
    have h2 := h 2 (by decide)
    simp [download_segment_from_peer, download_attempts, h0, h1, h2]
  · intro k hk1 hk3 hbefore hack
    have hk : k = 1 ∨ k = 2 ∨ k = 3 := by omega
    rcases hk with rfl | rfl | rfl
    · have h0 : replies 0 = MSG_ACK := hack
      simp [download_segment_from_peer, download_attempts, h0]
    · have h0 := hbefore 0 (by decide)
      have h1 : replies 1 = MSG_ACK := hack
      simp [download_segment_from_peer, download_attempts, h0, h1]
    · have h0 := hbefore 0 (by decide)
      have h1 := hbefore 1 (by decide)
      have h2 : replies 2 = MSG_ACK := hack
      simp [download_segment_from_peer, download_attempts, h0, h1, h2]

theorem fetch_attempts_witness :
    (∀ i, i < 3 → (fun _ : Nat => (-1 : Int)) i ≠ MSG_ACK) ∧
    (download_segment_from_peer 1 hashA (fun _ => -1)).result = 0 ∧
    (download_segment_from_peer 1 hashA (fun _ => -1)).receives = 3 :=
  ⟨fun _ _ => (by decide : (-1 : Int) ≠ MSG_ACK),
   ((fetch_attempts 1 hashA (fun _ => -1)).1
      (fun _ _ => (by decide : (-1 : Int) ≠ MSG_ACK))).1,
   ((fetch_attempts 1 hashA (fun _ => -1)).1
      (fun _ _ => (by decide : (-1 : Int) ≠ MSG_ACK))).2.1⟩

/-! ## C14: the reply of the upload duty -/

/-- The scan of `handle_segment_request` succeeds exactly when a record of a
file `1 .. MAX_FILES` holds the requested hash below its segment count. -/
theorem scan_found_iff (users_files : Nat → file_info) (requested_hash : Hash) :
    ((List.range' 1 MAX_FILES).any fun file_id =>
      decide ((users_files file_id).n_segments > 0) &&
      (List.range (users_files file_id).n_segments.toNat).any fun seg =>
        decide ((users_files file_id).segments seg = requested_hash)) = true ↔
    ∃ f seg : Nat, 1 ≤ f ∧ f ≤ MAX_FILES ∧ (seg : Int) < (users_files f).n_segments ∧
      (users_files f).segments seg = requested_hash := by
  simp only [List.any_eq_true, Bool.and_eq_true, decide_eq_true_eq, List.mem_range,
    List.mem_range'_1]
  constructor
  · rintro ⟨f, ⟨hf1, hf2⟩, -, seg, hseg, heq⟩
    exact ⟨f, seg, hf1, by omega, by omega, heq⟩
  · rintro ⟨f, seg, hf1, hf2, hseg, heq⟩
    exact ⟨f, ⟨hf1, by omega⟩, by omega, seg, by omega, heq⟩

/-- Claim C14: for every peer store, requester and requested hash,
`handle_segment_request` sends exactly one message, to the requester; it is
ACK if and only if the record of some file `1 .. MAX_FILES` of the peer holds,
at a segment index below that file's segment count, a hash equal to the
requested one; otherwise it is the not-found value -1, which differs from
ACK. -/
theorem upload_reply (users_files : Nat → file_info) (sender_rank : Nat)
    (requested_hash : Hash) :
    ∃ signal : Int,
      handle_segment_request users_files sender_rank requested_hash =
        [⟨sender_rank, 0, .int signal⟩] ∧
      (signal = MSG_ACK ↔
        ∃ f seg : Nat, 1 ≤ f ∧ f ≤ MAX_FILES ∧ (seg : Int) < (users_files f).n_segments ∧
          (users_files f).segments seg = requested_hash) ∧
      (signal = MSG_ACK ∨ signal = -1) ∧
      ((-1 : Int) ≠ MSG_ACK) := by
  have hiff := scan_found_iff users_files requested_hash
  by_cases hfound : ((List.range' 1 MAX_FILES).any fun file_id =>
      decide ((users_files file_id).n_segments > 0) &&
      (List.range (users_files file_id).n_segments.toNat).any fun seg =>
        decide ((users_files file_id).segments seg = requested_hash)) = true
  · refine ⟨MSG_ACK, ?_, ?_, Or.inl rfl, by decide⟩
    · unfold handle_segment_request
      simp only [hfound, if_true]
    · exact ⟨fun _ => hiff.mp hfound, fun _ => rfl⟩
  · refine ⟨-1, ?_, ?_, Or.inr rfl, by decide⟩
    · unfold handle_segment_request
      simp only [hfound, Bool.false_eq_true, if_false]
    · constructor
      · intro h; exact absurd h (by decide)
      · intro h; exact absurd (hiff.mpr h) hfound

theorem upload_reply_witness :
    ∃ signal : Int,
      handle_segment_request owner_store 2 hashB = [⟨2, 0, .int signal⟩] ∧
      (signal = MSG_ACK ↔
        ∃ f seg : Nat, 1 ≤ f ∧ f ≤ MAX_FILES ∧ (seg : Int) < (owner_store f).n_segments ∧
          (owner_store f).segments seg = hashB) ∧
      (signal = MSG_ACK ∨ signal = -1) ∧
      ((-1 : Int) ≠ MSG_ACK) :=
  upload_reply owner_store 2 hashB

/-! ## C15: the active-peer counter and the end of the main loop -/

/-- Counter after one iteration of the main loop. -/
theorem tracker_dispatch_n_clients (d : TrackerData) (m : Incoming) :
    (tracker_dispatch d m).1.n_clients =
      if m.signal = MSG_TERMINATE then d.n_clients - 1 else d.n_clients := by
  unfold tracker_dispatch
  by_cases h1 : m.signal = MSG_REQUEST
  · have h4 : ¬ (m.signal = MSG_TERMINATE) := by rw [h1]; decide
    rw [if_pos h1, if_neg h4]
  · rw [if_neg h1]
    by_cases h2 : m.signal = MSG_UPDATE
    · have h4 : ¬ (m.signal = MSG_TERMINATE) := by rw [h2]; decide
      rw [if_pos h2, if_neg h4]
      exact (handle_update_frame m.sender m.updates d).2.2.1
    · rw [if_neg h2]
      by_cases h3 : m.signal = MSG_FINISH
      · have h4 : ¬ (m.signal = MSG_TERMINATE) := by rw [h3]; decide
        rw [if_pos h3, if_neg h4]
        exact (tracker_finish_frame d m.sender m.file_id).2.2.1
      · rw [if_neg h3]
        by_cases h4 : m.signal = MSG_TERMINATE
        · rw [if_pos h4, if_pos h4]
        · rw [if_neg h4, if_neg h4]

/-- Registrations keep the counter. -/
theorem register_all_n_clients (rs : List Registration) :
    ∀ d : TrackerData, (register_all d rs).n_clients = d.n_clients := by
  induction rs with
  | nil => intro d; rfl
  | cons r rs ih =>
    intro d
    have hfold : register_all d (r :: rs) = register_all (register d r) rs := rfl
    rw [hfold, ih]
    unfold register
    by_cases hf : r.file_id < 0 ∨ r.file_id > (MAX_FILES : Int)
    · rw [receive_file_info_bad_file d r.sender r.file_id r.n_segments r.hashes hf]
    · exact (receive_file_info_effect d r.sender r.file_id r.n_segments r.hashes
        (by omega) (by omega)).2.1

/-- The main loop started with counter `c`: it blocks while fewer than `c`
TERMINATE messages have arrived, and otherwise ends right after the `c`-th. -/
theorem tracker_loop_ends (ms : List Incoming) :
    ∀ (d : TrackerData) (c : Nat), d.n_clients = (c : Int) →
      (terminate_count ms < c → tracker_loop d ms = none) ∧
      (c ≤ terminate_count ms →
        ∃ d2 sent k, tracker_loop d ms = some (d2, sent, k) ∧ k ≤ ms.length ∧
          terminate_count (ms.take k) = c ∧
          (∀ j, j < k → terminate_count (ms.take j) < c) ∧
          d2.n_clients = 0) := by
  induction ms with
  | nil =>
    intro d c hc
    constructor
    · intro h
      have hpos : d.n_clients > 0 := by
        have : 0 < c := by simpa [terminate_count] using h
        omega
      simp [tracker_loop, hpos]
    · intro h
      have hc0 : c = 0 := by simpa [terminate_count] using h
      subst hc0
      have hnot : ¬ (d.n_clients > 0) := by omega
      refine ⟨d, [], 0, by simp [tracker_loop, hnot], le_refl _, by simp [terminate_count],
        ?_, by simpa using hc⟩
      intro j hj; omega
  | cons m rest ih =>
    intro d c hc
    have hcount : terminate_count (m :: rest) =
        terminate_count rest + (if m.signal = MSG_TERMINATE then 1 else 0) := by
      unfold terminate_count
      rw [List.countP_cons]
      by_cases ht : m.signal = MSG_TERMINATE <;> simp [ht]
    by_cases hpos : d.n_clients > 0
    · have hstep := tracker_dispatch_n_clients d m
      by_cases ht : m.signal = MSG_TERMINATE
      · rw [if_pos ht] at hstep
        rw [if_pos ht] at hcount
        have hc1 : (tracker_dispatch d m).1.n_clients = ((c - 1 : Nat) : Int) := by
          rw [hstep]; omega
        obtain ⟨ih1, ih2⟩ := ih (tracker_dispatch d m).1 (c - 1) hc1
        constructor
        · intro h
          have := ih1 (by omega)
          simp [tracker_loop, hpos, this]
        · intro h
          obtain ⟨d2, sent, k, e1, e2, e3, e4, e5⟩ := ih2 (by omega)
          refine ⟨d2, (tracker_dispatch d m).2 ++ sent, k + 1, by simp [tracker_loop, hpos, e1],
            by simp; omega, ?_, ?_, e5⟩
          · rw [List.take_succ_cons]
            have : terminate_count (m :: rest.take k) = terminate_count (rest.take k) + 1 := by
              unfold terminate_count
              rw [List.countP_cons]
              simp [ht]
            rw [this, e3]; omega
          · intro j hj
            cases j with
            | zero => simp [terminate_count]; omega
            | succ j =>
              rw [List.take_succ_cons]
              have : terminate_count (m :: rest.take j) =
                  terminate_count (rest.take j) + 1 := by
                unfold terminate_count
                rw [List.countP_cons]
                simp [ht]
              rw [this]
              have := e4 j (by omega)
              omega
      · rw [if_neg ht] at hstep
        rw [if_neg ht] at hcount
        have hc1 : (tracker_dispatch d m).1.n_clients = (c : Int) := by
          rw [hstep]; exact hc
        obtain ⟨ih1, ih2⟩ := ih (tracker_dispatch d m).1 c hc1
        constructor
        · intro h
          have := ih1 (by omega)
          simp [tracker_loop, hpos, this]
        · intro h
          obtain ⟨d2, sent, k, e1, e2, e3, e4, e5⟩ := ih2 (by omega)
          refine ⟨d2, (tracker_dispatch d m).2 ++ sent, k + 1, by simp [tracker_loop, hpos, e1],
            by simp; omega, ?_, ?_, e5⟩
          · rw [List.take_succ_cons]
            have : terminate_count (m :: rest.take k) = terminate_count (rest.take k) := by
              unfold terminate_count
              rw [List.countP_cons]
              simp [ht]
            rw [this, e3]
          · intro j hj
            cases j with
            | zero => simp [terminate_count]; omega
            | succ j =>
              rw [List.take_succ_cons]
              have : terminate_count (m :: rest.take j) = terminate_count (rest.take j) := by
                unfold terminate_count
                rw [List.countP_cons]
                simp [ht]
              rw [this]
              exact e4 j (by omega)
    · have hc0 : c = 0 := by omega
      subst hc0
      constructor
      · intro h; omega
      · intro _
        refine ⟨d, [], 0, by simp [tracker_loop, hpos], Nat.zero_le _,
          by simp [terminate_count], ?_, by simpa using hc⟩
        intro j hj; omega

/-- Every message of a REQUEST reply is sent on tag 0. -/
theorem request_reply_tag (d : TrackerData) (r : Nat) (file_id : Int) :
    ∀ x ∈ handle_segment_request1 d r file_id, x.tag = 0 := by
  intro x hx
  unfold handle_segment_request1 at hx
  by_cases hf : file_id < 0 ∨ file_id > (MAX_FILES : Int)
  · rw [if_pos hf] at hx
    simp at hx
  · rw [if_neg hf] at hx
    simp only [List.mem_append, List.mem_singleton] at hx
    rcases hx with (hx | hx) | hx
    · cases hfind : (peer_ranks d.number_of_tasks).find?
          (fun i => decide (d.swarms file_id.toNat i ≠ 0)) with
      | none => rw [hfind] at hx; simp at hx
      | some i =>
        rw [hfind] at hx
        simp only [List.mem_singleton] at hx
        rw [hx]
    · rw [List.mem_flatMap] at hx
      obtain ⟨i, -, hx⟩ := hx
      by_cases hc : (d.swarms file_id.toNat i ≠ 0 ∨ d.seeds file_id.toNat i ≠ 0) ∧ i ≠ r
      · rw [if_pos hc, List.mem_flatMap] at hx
        obtain ⟨j, -, hx⟩ := hx
        by_cases hl : ((d.all_files i file_id.toNat).segments j).length > 0
        · rw [if_pos hl] at hx
          simp only [send_segment_request, List.mem_cons, List.mem_singleton,
            List.not_mem_nil, or_false] at hx
          rcases hx with rfl | rfl | rfl | rfl <;> rfl
        · rw [if_neg hl] at hx
          simp at hx
      · rw [if_neg hc] at hx
        simp at hx
    · rw [hx]

/-- Every message sent inside the main loop is sent on tag 0. -/
theorem tracker_loop_tag (ms : List Incoming) :
    ∀ (d d2 : TrackerData) (sent : List Sent) (k : Nat),
      tracker_loop d ms = some (d2, sent, k) → ∀ x ∈ sent, x.tag = 0 := by
  induction ms with
  | nil =>
    intro d d2 sent k h x hx
    unfold tracker_loop at h
    by_cases hpos : d.n_clients > 0
    · rw [if_pos hpos] at h; exact absurd h (by simp)
    · rw [if_neg hpos] at h
      simp only [Option.some.injEq, Prod.mk.injEq] at h
      rw [← h.2.1] at hx
      simp at hx
  | cons m rest ih =>
    intro d d2 sent k h x hx
    unfold tracker_loop at h
    by_cases hpos : d.n_clients > 0
    · rw [if_pos hpos] at h
      cases hrest : tracker_loop (tracker_dispatch d m).1 rest with
      | none => rw [hrest] at h; exact absurd h (by simp)
      | some res =>
        obtain ⟨d3, sent3, k3⟩ := res
        rw [hrest] at h
        simp only [Option.some.injEq, Prod.mk.injEq] at h
        rw [← h.2.1, List.mem_append] at hx
        rcases hx with hx | hx
        · unfold tracker_dispatch at hx
          by_cases h1 : m.signal = MSG_REQUEST
          · rw [if_pos h1] at hx
            exact request_reply_tag d m.sender m.file_id x hx
          · rw [if_neg h1] at hx
            by_cases h2 : m.signal = MSG_UPDATE
            · rw [if_pos h2] at hx; simp at hx
            · rw [if_neg h2] at hx
              by_cases h3 : m.signal = MSG_FINISH
              · rw [if_pos h3] at hx; simp at hx
              · rw [if_neg h3] at hx
                by_cases h4 : m.signal = MSG_TERMINATE
                · rw [if_pos h4] at hx; simp at hx
                · rw [if_neg h4] at hx; simp at hx
        · exact ih _ d3 sent3 k3 hrest x hx
    · rw [if_neg hpos] at h
      simp only [Option.some.injEq, Prod.mk.injEq] at h
      rw [← h.2.1] at hx
      simp at hx

/-- The shutdown broadcast holds one TERMINATE per peer and nothing else. -/
theorem tracker_shutdown_once (number_of_tasks : Nat) :
    (∀ i, 1 ≤ i → i < number_of_tasks →
      (tracker_shutdown number_of_tasks).count ⟨i, 1, .int MSG_TERMINATE⟩ = 1) ∧
    (∀ x ∈ tracker_shutdown number_of_tasks,
      ∃ i, 1 ≤ i ∧ i < number_of_tasks ∧ x = ⟨i, 1, .int MSG_TERMINATE⟩) := by
  constructor
  · intro i h1 h2
    apply List.count_eq_one_of_mem
    · unfold tracker_shutdown peer_ranks
      refine List.Nodup.map ?_ (List.nodup_range' 1 (number_of_tasks - 1))
      intro a b hab
      simp only [Sent.mk.injEq] at hab
      exact hab.1
    · unfold tracker_shutdown
      rw [List.mem_map]
      exact ⟨i, (mem_peer_ranks _ _).mpr ⟨h1, h2⟩, rfl⟩
  · intro x hx
    unfold tracker_shutdown at hx
    rw [List.mem_map] at hx
    obtain ⟨i, hi, rfl⟩ := hx
    exact ⟨i, ((mem_peer_ranks _ _).mp hi).1, ((mem_peer_ranks _ _).mp hi).2, rfl⟩

/-- Claim C15: with `number_of_tasks - 1` peers the counter starts at
`number_of_tasks - 1` and the registrations keep it; handling TERMINATE
decrements it by one, changes nothing else and sends nothing; REQUEST, UPDATE
and FINISH leave it unchanged; so the main loop blocks while fewer than
`number_of_tasks - 1` TERMINATE messages have arrived and ends right after
the one that makes `number_of_tasks - 1`; the tracker then sends TERMINATE on
tag 1 once to each peer `1 .. number_of_tasks - 1`, and whatever it sent
before was sent on tag 0. -/
theorem counter_and_shutdown (number_of_tasks : Nat) (rs : List Registration)
    (ms : List Incoming) :
    (init_tracker number_of_tasks).n_clients = (number_of_tasks : Int) - 1 ∧
    (register_all (init_tracker number_of_tasks) rs).n_clients =
      (number_of_tasks : Int) - 1 ∧
    (∀ (d : TrackerData) (m : Incoming), m.signal = MSG_TERMINATE →
      tracker_dispatch d m = ({ d with n_clients := d.n_clients - 1 }, [])) ∧
    (∀ (d : TrackerData) (m : Incoming),
      m.signal = MSG_REQUEST ∨ m.signal = MSG_UPDATE ∨ m.signal = MSG_FINISH →
      (tracker_dispatch d m).1.n_clients = d.n_clients) ∧
    (1 ≤ number_of_tasks →
      (terminate_count ms < number_of_tasks - 1 →
        tracker_main number_of_tasks (register_all (init_tracker number_of_tasks) rs) ms =
          none) ∧
      (number_of_tasks - 1 ≤ terminate_count ms →
        ∃ d2 sent k,
          tracker_loop (register_all (init_tracker number_of_tasks) rs) ms =
            some (d2, sent, k) ∧
          k ≤ ms.length ∧
          terminate_count (ms.take k) = number_of_tasks - 1 ∧
          (∀ j, j < k → terminate_count (ms.take j) < number_of_tasks - 1) ∧
          d2.n_clients = 0 ∧
          (∀ x ∈ tracker_start number_of_tasks ++ sent, x.tag = 0) ∧
          tracker_main number_of_tasks (register_all (init_tracker number_of_tasks) rs) ms =
            some (tracker_start number_of_tasks ++ sent ++
              tracker_shutdown number_of_tasks))) ∧
    (∀ i, 1 ≤ i → i < number_of_tasks →
      (tracker_shutdown number_of_tasks).count ⟨i, 1, .int MSG_TERMINATE⟩ = 1) ∧
    (∀ x ∈ tracker_shutdown number_of_tasks,
      ∃ i, 1 ≤ i ∧ i < number_of_tasks ∧ x = ⟨i, 1, .int MSG_TERMINATE⟩) := by
  have hreg : (register_all (init_tracker number_of_tasks) rs).n_clients =
      (number_of_tasks : Int) - 1 := by
    rw [register_all_n_clients]; rfl
  refine ⟨rfl, hreg, ?_, ?_, ?_, (tracker_shutdown_once number_of_tasks).1,
    (tracker_shutdown_once number_of_tasks).2⟩
  · intro d m hm
    unfold tracker_dispatch
    have h1 : ¬ (m.signal = MSG_REQUEST) := by rw [hm]; decide
    have h2 : ¬ (m.signal = MSG_UPDATE) := by rw [hm]; decide
    have h3 : ¬ (m.signal = MSG_FINISH) := by rw [hm]; decide
    rw [if_neg h1, if_neg h2, if_neg h3, if_pos hm]
  · intro d m hm
    rw [tracker_dispatch_n_clients]
    have h4 : ¬ (m.signal = MSG_TERMINATE) := by
      rcases hm with h | h | h <;> rw [h] <;> decide
    rw [if_neg h4]
  · intro hN
    have hc : (register_all (init_tracker number_of_tasks) rs).n_clients =
        ((number_of_tasks - 1 : Nat) : Int) := by
      rw [hreg]; omega
    obtain ⟨l1, l2⟩ := tracker_loop_ends ms
      (register_all (init_tracker number_of_tasks) rs) (number_of_tasks - 1) hc
    constructor
    · intro h
      unfold tracker_main
      rw [l1 h]
    · intro h
      obtain ⟨d2, sent, k, e1, e2, e3, e4, e5⟩ := l2 h
      refine ⟨d2, sent, k, e1, e2, e3, e4, e5, ?_, ?_⟩
      · intro x hx
        rw [List.mem_append] at hx
        rcases hx with hx | hx
        · unfold tracker_start at hx
          rw [List.mem_map] at hx
          obtain ⟨i, -, rfl⟩ := hx
          rfl
        · exact tracker_loop_tag ms _ d2 sent k e1 x hx
      · unfold tracker_main
        rw [e1]

theorem counter_and_shutdown_witness :
    (1 ≤ 3) ∧ (3 - 1 ≤ terminate_count [⟨1, MSG_TERMINATE, 0, []⟩,
      ⟨2, MSG_REQUEST, 1, []⟩, ⟨2, MSG_TERMINATE, 0, []⟩]) ∧
    ∃ d2 sent k,
      tracker_loop (register_all (init_tracker 3) []) [⟨1, MSG_TERMINATE, 0, []⟩,
        ⟨2, MSG_REQUEST, 1, []⟩, ⟨2, MSG_TERMINATE, 0, []⟩] = some (d2, sent, k) ∧
      k ≤ ([⟨1, MSG_TERMINATE, 0, []⟩, ⟨2, MSG_REQUEST, 1, []⟩,
        ⟨2, MSG_TERMINATE, 0, []⟩] : List Incoming).length ∧
      terminate_count (([⟨1, MSG_TERMINATE, 0, []⟩, ⟨2, MSG_REQUEST, 1, []⟩,
        ⟨2, MSG_TERMINATE, 0, []⟩] : List Incoming).take k) = 3 - 1 ∧
      (∀ j, j < k → terminate_count (([⟨1, MSG_TERMINATE, 0, []⟩, ⟨2, MSG_REQUEST, 1, []⟩,
        ⟨2, MSG_TERMINATE, 0, []⟩] : List Incoming).take j) < 3 - 1) ∧
      d2.n_clients = 0 ∧
      (∀ x ∈ tracker_start 3 ++ sent, x.tag = 0) ∧
      tracker_main 3 (register_all (init_tracker 3) []) [⟨1, MSG_TERMINATE, 0, []⟩,
        ⟨2, MSG_REQUEST, 1, []⟩, ⟨2, MSG_TERMINATE, 0, []⟩] =
        some (tracker_start 3 ++ sent ++ tracker_shutdown 3) :=
  ⟨by decide, by decide,
   ((counter_and_shutdown 3 [] [⟨1, MSG_TERMINATE, 0, []⟩, ⟨2, MSG_REQUEST, 1, []⟩,
      ⟨2, MSG_TERMINATE, 0, []⟩]).2.2.2.2.1 (by decide)).2 (by decide)⟩

/-! ## C16: the choice of a source -/

/-- Claim C16: for every swarm view, own rank and segment index, the source
chosen by the download duty is the smallest peer id `p` in
`1 .. number_of_tasks - 1` with `p` different from the own rank and a
non-empty hash for the segment in the view, and a fetch of a segment not yet
held is addressed to that peer; when no such `p` exists the choice is -1 and
the iteration changes nothing: no message is sent and the local record is as
before, so the segment stays missing. -/
theorem source_is_lowest_holder (peer_list : Nat → file_info)
    (number_of_tasks rank seg : Nat) :
    (∀ p, 1 ≤ p → p < number_of_tasks → p ≠ rank →
      ((peer_list p).segments seg).length > 0 →
      (∀ k, 1 ≤ k → k < p → ¬ (k ≠ rank ∧ ((peer_list k).segments seg).length > 0)) →
      choose_peer peer_list number_of_tasks rank seg = (p : Int) ∧
      ∀ (file_id : Nat) (st : PassState) (replies : Nat → Int),
        st.peer_list = peer_list → (st.users_files file_id).segments seg = [] →
        (fetch_segment number_of_tasks rank file_id st seg replies).sent =
          st.sent ++
            (download_segment_from_peer p ((peer_list p).segments seg) replies).sent) ∧
    ((∀ p, 1 ≤ p → p < number_of_tasks →
        ¬ (p ≠ rank ∧ ((peer_list p).segments seg).length > 0)) →
      choose_peer peer_list number_of_tasks rank seg = -1 ∧
      ∀ (file_id : Nat) (st : PassState) (replies : Nat → Int),
        st.peer_list = peer_list →
        fetch_segment number_of_tasks rank file_id st seg replies = st) := by
  have hfr := find_range'
    (fun p => decide (p ≠ rank ∧ ((peer_list p).segments seg).length > 0))
    (number_of_tasks - 1) 1
  have hpr : peer_ranks number_of_tasks = List.range' 1 (number_of_tasks - 1) := rfl
  constructor
  · intro p hp1 hp2 hne hlen hmin
    have hchoose : choose_peer peer_list number_of_tasks rank seg = (p : Int) := by
      unfold choose_peer
      rw [hpr]
      cases hfind : (List.range' 1 (number_of_tasks - 1)).find?
          (fun p => decide (p ≠ rank ∧ ((peer_list p).segments seg).length > 0)) with
      | none =>
        rw [hfind] at hfr
        have := hfr p hp1 (by omega)
        simp only [decide_eq_false_iff_not] at this
        exact absurd ⟨hne, hlen⟩ this
      | some i =>
        rw [hfind] at hfr
        obtain ⟨a1, a2, a3, a4⟩ := hfr
        simp only [decide_eq_true_eq] at a3
        have hip : i = p := by
          rcases Nat.lt_trichotomy i p with h | h | h
          · exact absurd a3 (hmin i a1 h)
          · exact h
          · have := a4 p hp1 h
            simp only [decide_eq_false_iff_not] at this
            exact absurd ⟨hne, hlen⟩ this
        rw [hip]
    refine ⟨hchoose, ?_⟩
    intro file_id st replies hst hempty
    unfold fetch_segment
    have h1 : ¬ (((st.users_files file_id).segments seg).length > 0) := by
      rw [hempty]; simp
    have h2 : ¬ ((p : Int) = -1) := by omega
    rw [if_neg h1, hst, hchoose]
    simp only [h2, if_false, Int.toNat_ofNat]
    by_cases hr : (download_segment_from_peer p ((peer_list p).segments seg) replies).result
        ≠ 0
    · rw [if_pos hr]
    · rw [if_neg hr]
  · intro hnone
    have hchoose : choose_peer peer_list number_of_tasks rank seg = -1 := by
      unfold choose_peer
      rw [hpr]
      cases hfind : (List.range' 1 (number_of_tasks - 1)).find?
          (fun p => decide (p ≠ rank ∧ ((peer_list p).segments seg).length > 0)) with
      | none => rfl
      | some i =>
        rw [hfind] at hfr
        obtain ⟨a1, a2, a3, -⟩ := hfr
        simp only [decide_eq_true_eq] at a3
        exact absurd a3 (hnone i a1 (by omega))
    refine ⟨hchoose, ?_⟩
    intro file_id st replies hst
    unfold fetch_segment
    by_cases h1 : ((st.users_files file_id).segments seg).length > 0
    · rw [if_pos h1]
    · rw [if_neg h1, hst, hchoose]
      simp

theorem source_is_lowest_holder_witness :
    (1 ≤ 3 ∧ 3 < 4 ∧ 3 ≠ 1 ∧ ((sample_view 3).segments 0).length > 0) ∧
    choose_peer sample_view 4 1 0 = ((3 : Nat) : Int) :=
  ⟨by decide,
   ((source_is_lowest_holder sample_view 4 1 0).1 3 (by decide) (by decide) (by decide)
      (by decide) (by
        intro k h1 h2
        have hk : k = 1 ∨ k = 2 := by omega
        rcases hk with rfl | rfl <;> decide)).1⟩

/-! ## C17: the command of a retry -/

/-- Claim C17 on the code: peer 1 is asked for `hashA` and answers the
not-found value -1 each time. The first attempt sends `MSG_REQUEST`; the
second and third attempts send the reply just received, -1, as the command,
which is not `MSG_REQUEST`, and the upload duty of the source sends no reply
to such a command. -/
theorem retry_sends_reply_as_command :
    (download_segment_from_peer 1 hashA (fun _ => -1)).sent =
      [⟨1, 1, .int MSG_REQUEST⟩, ⟨1, 1, .chars hashA⟩,
       ⟨1, 1, .int (-1)⟩, ⟨1, 1, .chars hashA⟩,
       ⟨1, 1, .int (-1)⟩, ⟨1, 1, .chars hashA⟩] ∧
    ((-1 : Int) ≠ MSG_REQUEST) ∧
    handle_segment_request owner_store 2 ['z'] = [⟨2, 0, .int (-1)⟩] ∧
    upload_dispatch owner_store 2 (-1) hashA = ([], true) ∧
    upload_dispatch owner_store 2 MSG_REQUEST hashA = ([⟨2, 0, .int MSG_ACK⟩], true) := by
  refine ⟨by decide, by decide, by decide, by decide, by decide⟩

/-! ## C13: the retry cap -/

/-- Claim C13 on the code: peer 2 asks peer 1 for `hashC`, which peer 1 does
not hold, so the upload duty of peer 1 answers the first attempt with -1. With
the replies -1, -1, -1 delivered, `download_segment_from_peer` returns 0 after
three receives, but of the three commands it sent only the first is
`MSG_REQUEST`: the second and third are the reply -1, so the request is sent
once, not 3 times. The upload duty of peer 1 sends no reply to the command
-1, so the second and third reply do not come from it. -/
theorem retry_cap_sends_one_request :
    handle_segment_request owner_store 2 hashC = [⟨2, 0, .int (-1)⟩] ∧
    (download_segment_from_peer 1 hashC (fun _ => -1)).result = 0 ∧
    (download_segment_from_peer 1 hashC (fun _ => -1)).receives = 3 ∧
    (download_segment_from_peer 1 hashC (fun _ => -1)).sent.count
      ⟨1, 1, .int MSG_REQUEST⟩ = 1 ∧
    (download_segment_from_peer 1 hashC (fun _ => -1)).sent.count
      ⟨1, 1, .int (-1)⟩ = 2 ∧
    (download_segment_from_peer 1 hashC (fun _ => -1)).sent.count
      ⟨1, 1, .chars hashC⟩ = 3 ∧
    (upload_dispatch owner_store 2 (-1) hashC).1 = [] := by
  refine ⟨by decide, by decide, by decide, by decide, by decide, by decide, by decide⟩

end BitTorrent
